import Mathlib

/-! platconf: release manifests, the update pipeline and the status service

A shallow embedding of `platconf/manifests.go`, `update/update.go` and
`oldstatus/oldstatus.go`.

Conventions of the embedding

* A Go `error` is an `Option String` (`none` is `nil`, `some msg` carries the
  text of `err.Error()`); a `(T, error)` result is an `Except String T`.
* A Go slice is an `Option (List α)`: `none` is the nil slice.
* A Go `map[string]string` is an `Option GoMap`: `none` is the nil map, and a
  `GoMap` is a list of entries with pairwise distinct keys.  `range` over a map
  visits every entry once in an order the runtime chooses, so a function that
  ranges over a map takes the visiting sequence as an argument; `RangeOrder`
  says which sequences the runtime may choose.
* Effects (HTTP requests, file-system calls, collaborators that live outside
  the sources studied here) are answered by a record of oracles, and every
  effectful function returns the list of effects it performed next to its
  result.
-/

/-! ## Package `platconf` (manifests.go) -/

namespace platconf

/-- A non-nil Go `map[string]string`: its entries, with pairwise distinct keys. -/
structure GoMap where
  entries : List (String × String)
  nodup : (entries.map Prod.fst).Nodup

/-- The entries of a possibly nil map; the nil map has none. -/
def mapEntries : Option GoMap → List (String × String)
  | none => []
  | some m => m.entries

/-- The sequences `for k, v := range m` may produce: every entry exactly once,
in any order. -/
def RangeOrder (m : Option GoMap) (iter : List (String × String)) : Prop :=
  iter.Perm (mapEntries m)

/-- The value `m[k]` together with its presence bit, as in `v, ok := m[k]`. -/
def mapIndex (m : Option GoMap) (k : String) : Option String :=
  ((mapEntries m).find? (fun e => decide (e.1 = k))).map Prod.snd

/-- The elements `for _, x := range s` visits: none for the nil slice. -/
def sliceElems {α : Type} : Option (List α) → List α
  | none => []
  | some l => l

/-- Go `append(s, x)`: the result is never nil. -/
def goAppend {α : Type} (s : Option (List α)) (x : α) : Option (List α) :=
  some (sliceElems s ++ [x])

/-- The struct `ReleaseManifestV2Image`. -/
structure ReleaseManifestV2Image where
  Name : String
  Tag : String
  PreDownload : Bool
  deriving DecidableEq, Repr

/-- The struct `ReleaseManifestV1`; `Build` is an `int32` that is only copied. -/
structure ReleaseManifestV1 where
  Build : Int
  Codename : String
  URL : String
  PublishedAt : String
  Images : Option GoMap

/-- The struct `ReleaseManifestV2`. -/
structure ReleaseManifestV2 where
  Build : Int
  Codename : String
  ReleaseNotesURL : String
  PublishedAt : String
  Images : Option (List ReleaseManifestV2Image)
  deriving DecidableEq, Repr

/-- One pass of the loop body of `ToV2`: append the image built from `(k, v)`. -/
def toV2Step (v2 : ReleaseManifestV2) (kv : String × String) : ReleaseManifestV2 :=
  { v2 with Images := goAppend v2.Images { Name := kv.1, Tag := kv.2, PreDownload := true } }

/-- The method `ReleaseManifestV1.ToV2`; `iter` is the sequence of entries that
`range rm.Images` yields on this call. -/
def ReleaseManifestV1.ToV2 (rm : ReleaseManifestV1) (iter : List (String × String)) :
    ReleaseManifestV2 :=
  iter.foldl toV2Step
    { Build := rm.Build
      Codename := rm.Codename
      ReleaseNotesURL := rm.URL
      PublishedAt := rm.PublishedAt
      Images := some [] }

/-- The loop of `GetImageByName` over the remaining images: return the first
one whose name equals `name`, or nil when the images are exhausted. -/
def getImageLoop (name : String) : List ReleaseManifestV2Image → Option ReleaseManifestV2Image
  | [] => none
  | img :: rest => if img.Name = name then some img else getImageLoop name rest

/-- The method `ReleaseManifestV2.GetImageByName`; `none` is the nil pointer and
`some img` a pointer to a copy of the image. -/
def ReleaseManifestV2.GetImageByName (rm : ReleaseManifestV2) (name : String) :
    Option ReleaseManifestV2Image :=
  getImageLoop name (sliceElems rm.Images)

end platconf

/-! ## Package `update` (update.go) -/

namespace update

open platconf

/-- What `http.Get(url)` and the following `ioutil.ReadAll(resp.Body)` can do:
the request fails, or a response with a status code arrives whose body either
reads completely or fails while being read. -/
inductive HttpResult
  | netError (msg : String)
  | response (status : Int) (body : Except String String)

/-- Effects performed inside a pipeline stage. -/
inductive IOEvent
  | httpGet (url : String)
  | log (msg : String)
  | mkdirAll (dir : String)
  | tempDir
  | pullImage (name tag : String)
  | extractDockerImage (name tag dir : String)
  | removeAll (dir : String)
  deriving DecidableEq, Repr

/-- The stages of `runUpdate` that can report an error, in program order. -/
inductive Stage
  | fetchReleaseData
  | configureLookup
  | extractConfigure
  | setupPaths
  | performOSUpdate
  | setupUtilityScripts
  | setupBinaries
  | pullAllImages
  | parseAllTemplates
  | cleanupSystemd
  | setupUdev
  | setupSystemD
  | setupChannelFile
  | finalize
  deriving DecidableEq, Repr

/-- The two button modes `runUpdate` and `Execute` pass to `button`. -/
inductive ButtonMode
  | buttonRainbow
  | buttonError
  deriving DecidableEq, Repr

/-- Effects of `Execute` and `runUpdate` in the order performed.  `stage s io err`
is the call of stage `s`, the effects it performed and the error it returned;
`setStatus` only ever passes a nil progress here, recorded as a presence bit. -/
inductive Event
  | setenv (key value : String)
  | requireRoot
  | lockNew (path : String)
  | tryLock
  | unlock
  | button (mode : ButtonMode)
  | setStatus (status : String) (hasProgress : Bool) (what : Option String)
  | getChannel (specified : String)
  | logChannelDetection (channel source : String)
  | stage (s : Stage) (io : List IOEvent) (err : Option String)
  | println (msg : String)
  | log (msg : String)
  | stat (path : String)
  | writeFile (path content : String)
  | removeAll (dir : String)
  | reboot
  | stderr (msg : String)
  | exit (code : Int)
  deriving DecidableEq, Repr

/-- How a call of `Execute` ends: it returns an error value, the process is
terminated by `os.Exit`, or it panics. -/
inductive Outcome
  | returned (err : Option String)
  | exited (code : Int)
  | panicked (msg : String)
  deriving DecidableEq, Repr

/-- How a call that returns no value can end the process instead of returning. -/
inductive Halt
  | exit (code : Int)
  | panic (msg : String)
  deriving DecidableEq, Repr

/-- The outcome of `Execute` when a callee halts the process. -/
def Halt.toOutcome : Halt → Outcome
  | .exit code => .exited code
  | .panic msg => .panicked msg

/-- What `lock.TryLock()` answers. -/
inductive TryLockResult
  | acquired
  | errBusy
  | failed (msg : String)
  deriving DecidableEq, Repr

/-- The environment of one run of the update command: the answers of the network,
the JSON library, the file system and of the collaborators whose code lies
outside `update.go`.  `requireRoot` is `none` when `platconf.RequireRoot()`
returns, and says how the process ends otherwise. -/
structure World where
  http : String → HttpResult
  unmarshalV2 : String → Except String ReleaseManifestV2
  unmarshalV1 : String → Except String (List ReleaseManifestV1)
  rangeOrder : ReleaseManifestV1 → List (String × String)
  pathJoin : String → String → String
  mkdirAll : String → Option String
  tempDir : Except String String
  pullImage : String → String → Option String
  extractDockerImage : String → String → String → Option String
  statNotExist : String → Bool
  getChannel : String → String × String
  performOSUpdate : Option String
  setupUtilityScripts : String → String → Option String
  setupBinaries : String → String → Option String
  pullAllImages : ReleaseManifestV2 → Int → Int → Option String
  parseAllTemplates : String → String → ReleaseManifestV2 → Option String
  cleanupSystemd : String → Option String
  setupUdev : String → String → Option String
  setupSystemD : String → String → Option String
  setupChannelFile : String → String → Option String
  finalize : ReleaseManifestV2 → String → Option String
  requireRoot : Option Halt
  lockNew : String → Option String
  tryLock : TryLockResult

/-- The package variable `lockfilePath`. -/
def lockfilePath : String := "/var/run/platconf.lock"

/-- The struct `Opts`. -/
structure Opts where
  Channel : String
  Pullers : Int
  PullRetries : Int
  deriving DecidableEq, Repr

/-- The URL `fetchReleaseJSONv2` requests. -/
def urlV2 (channel : String) : String :=
  "https://raw.githubusercontent.com/protonet/builds/master/manifest-v2/" ++ channel ++ ".json"

/-- The URL `fetchReleaseJSONv1` requests. -/
def urlV1 (channel : String) : String :=
  "https://raw.githubusercontent.com/protonet/builds/master/" ++ channel ++ ".json"

/-- The status switch and body read shared verbatim by `fetchReleaseJSONv2` and
`fetchReleaseJSONv1`. -/
def readResponse (channel : String) : HttpResult → Except String String
  | .netError e => .error e
  | .response status body =>
    if status = 200 then body
    else if status = 404 then .error ("no such channel: '" ++ channel ++ "'")
    else .error ("response status code was " ++ toString status)

/-- The function `fetchReleaseJSONv2`. -/
def fetchReleaseJSONv2 (w : World) (channel : String) : List IOEvent × Except String String :=
  ([.httpGet (urlV2 channel)], readResponse channel (w.http (urlV2 channel)))

/-- The function `fetchReleaseDataV2`. -/
def fetchReleaseDataV2 (w : World) (channel : String) :
    List IOEvent × Except String ReleaseManifestV2 :=
  match fetchReleaseJSONv2 w channel with
  | (t, .error e) => (t, .error e)
  | (t, .ok data) =>
    match w.unmarshalV2 data with
    | .error e => (t, .error e)
    | .ok manifest => (t, .ok manifest)

/-- The function `fetchReleaseJSONv1`. -/
def fetchReleaseJSONv1 (w : World) (channel : String) : List IOEvent × Except String String :=
  ([.httpGet (urlV1 channel)], readResponse channel (w.http (urlV1 channel)))

/-- The function `fetchReleaseDataV1`. -/
def fetchReleaseDataV1 (w : World) (channel : String) :
    List IOEvent × Except String ReleaseManifestV1 :=
  match fetchReleaseJSONv1 w channel with
  | (t, .error e) => (t, .error e)
  | (t, .ok data) =>
    match w.unmarshalV1 data with
    | .error e => (t, .error e)
    | .ok manifest =>
      if manifest.length ≠ 1 then
        (t, .error ("the length of the manifest array is " ++ toString manifest.length))
      else
        match manifest with
        | m :: _ => (t, .ok m)
        | [] => (t, .error "index out of range [0] with length 0")

/-- The function `fetchReleaseData`. -/
def fetchReleaseData (w : World) (channel : String) :
    List IOEvent × Except String ReleaseManifestV2 :=
  match fetchReleaseDataV2 w channel with
  | (t2, .ok data) => (t2, .ok data)
  | (t2, .error e) =>
    let t := t2 ++ [.log ("Couldnt fetch manifest v2: " ++ e ++ "\n"), .log "Trying v1\n"]
    match fetchReleaseDataV1 w channel with
    | (t1, .error e1) => (t ++ t1, .error e1)
    | (t1, .ok dataV1) => (t ++ t1, .ok (dataV1.ToV2 (w.rangeOrder dataV1)))

/-- The directories `setupPaths` creates, in order. -/
def requiredPaths : List String :=
  [ "/etc/protonet"
  , "/etc/systemd/journald.conf.d"
  , "/etc/systemd/system"
  , "/etc/systemd/system/docker.service.d"
  , "/etc/systemd/system/scripts"
  , "/etc/udev/rules.d"
  , "/opt/bin" ]

/-- The loop of `setupPaths` over the remaining paths: stop at the first
`os.MkdirAll` that fails. -/
def setupPathsLoop (w : World) (rootPrefix : String) : List String → List IOEvent × Option String
  | [] => ([], none)
  | p :: rest =>
    let dir := w.pathJoin rootPrefix p
    match w.mkdirAll dir with
    | some e => ([.mkdirAll dir], some e)
    | none =>
      let r := setupPathsLoop w rootPrefix rest
      (.mkdirAll dir :: r.1, r.2)

/-- The function `setupPaths`. -/
def setupPaths (w : World) (rootPrefix : String) : List IOEvent × Option String :=
  setupPathsLoop w rootPrefix requiredPaths

/-- The image name `runUpdate` and `extractConfigure` use for the configure image. -/
def configureImage : String := "quay.io/experimentalplatform/configure"

/-- The function `extractConfigure`. -/
def extractConfigure (w : World) (tag : String) : List IOEvent × Except String String :=
  match w.tempDir with
  | .error e => ([.tempDir], .error e)
  | .ok tmpDir =>
    let t1 : List IOEvent := [.tempDir, .log "Pulling configure image", .pullImage configureImage tag]
    match w.pullImage configureImage tag with
    | some e => (t1, .error e)
    | none =>
      let t2 := t1 ++ [.log "Extracting configure image", .extractDockerImage configureImage tag tmpDir]
      match w.extractDockerImage configureImage tag tmpDir with
      | some e => (t2 ++ [.removeAll tmpDir], .error e)
      | none => (t2, .ok tmpDir)

/-- The error of an `Except` result as a Go `error` value. -/
def errOf {α : Type} : Except String α → Option String
  | .error e => some e
  | .ok _ => none

/-- The block "setup default hostname" of `runUpdate`: `os.Stat` on the file and,
when it does not exist, `ioutil.WriteFile` whose result is discarded. -/
def seedHostname (w : World) (hostameFilePath : String) : List Event :=
  if w.statNotExist hostameFilePath then
    [.stat hostameFilePath, .writeFile hostameFilePath "protonet"]
  else [.stat hostameFilePath]

/-- The `if err != nil` after `performOSUpdate()`: the error is logged, nothing
is returned. -/
def logOSUpdate : Option String → List Event
  | some e => [.log ("update-engine returned error: " ++ e)]
  | none => []

/-- The part of `runUpdate` after `defer os.RemoveAll(configureExtractDir)` has
been registered, from "setup paths" to the final `return nil`. -/
def runUpdateStaged (w : World) (rootDir channel : String) (releaseData : ReleaseManifestV2)
    (configureExtractDir : String) (maxPullers maxPullRetries : Int) :
    List Event × Option String :=
  let paths := setupPaths w rootDir
  let t : List Event :=
    [ .println "Creating folders in '/etc/systemd' in case they don't exist yet."
    , .stage .setupPaths paths.1 paths.2 ]
  match paths.2 with
  | some e => (t, some e)
  | none =>
  let t := t ++ seedHostname w (w.pathJoin rootDir "/etc/protonet/hostname")
  let t := t ++ [.stage .performOSUpdate [] w.performOSUpdate] ++ logOSUpdate w.performOSUpdate
  let t := t ++ [.stage .setupUtilityScripts [] (w.setupUtilityScripts rootDir configureExtractDir)]
  match w.setupUtilityScripts rootDir configureExtractDir with
  | some e => (t, some e)
  | none =>
  let t := t ++ [.stage .setupBinaries [] (w.setupBinaries rootDir configureExtractDir)]
  match w.setupBinaries rootDir configureExtractDir with
  | some e => (t, some e)
  | none =>
  let t := t ++ [.stage .pullAllImages [] (w.pullAllImages releaseData maxPullers maxPullRetries)]
  match w.pullAllImages releaseData maxPullers maxPullRetries with
  | some e => (t, some e)
  | none =>
  let t := t ++
    [.stage .parseAllTemplates [] (w.parseAllTemplates rootDir configureExtractDir releaseData)]
  match w.parseAllTemplates rootDir configureExtractDir releaseData with
  | some e => (t, some e)
  | none =>
  let t := t ++ [.stage .cleanupSystemd [] (w.cleanupSystemd rootDir)]
  match w.cleanupSystemd rootDir with
  | some e => (t, some e)
  | none =>
  let t := t ++ [.stage .setupUdev [] (w.setupUdev rootDir configureExtractDir)]
  match w.setupUdev rootDir configureExtractDir with
  | some e => (t, some e)
  | none =>
  let t := t ++ [.stage .setupSystemD [] (w.setupSystemD rootDir configureExtractDir)]
  match w.setupSystemD rootDir configureExtractDir with
  | some e => (t, some e)
  | none =>
  let channelFile := w.pathJoin rootDir "etc/protonet/system/channel"
  let t := t ++ [.stage .setupChannelFile [] (w.setupChannelFile channelFile channel)]
  match w.setupChannelFile channelFile channel with
  | some e => (t, some e)
  | none =>
  let t := t ++ [.setStatus "finalizing" false none,
    .stage .finalize [] (w.finalize releaseData rootDir)]
  match w.finalize releaseData rootDir with
  | some e => (t, some e)
  | none =>
  (t ++ [.setStatus "done" false none, .log "Triggering a reboot", .reboot], none)

/-- The function `runUpdate`. -/
def runUpdate (w : World) (specifiedChannel rootDir : String) (maxPullers maxPullRetries : Int) :
    List Event × Option String :=
  let chan := w.getChannel specifiedChannel
  let fetched := fetchReleaseData w chan.1
  let t : List Event :=
    [ .button .buttonRainbow
    , .setStatus "preparing" false none
    , .getChannel specifiedChannel
    , .logChannelDetection chan.1 chan.2
    , .stage .fetchReleaseData fetched.1 (errOf fetched.2) ]
  match fetched.2 with
  | .error e => (t, some e)
  | .ok releaseData =>
  match releaseData.GetImageByName configureImage with
  | none =>
    (t ++ [.stage .configureLookup [] (some "configure image data not found in the manifest")],
      some "configure image data not found in the manifest")
  | some configureImgData =>
  let t := t ++ [.stage .configureLookup [] none]
  let extracted := extractConfigure w configureImgData.Tag
  let t := t ++ [.stage .extractConfigure extracted.1 (errOf extracted.2)]
  match extracted.2 with
  | .error e => (t, some e)
  | .ok configureExtractDir =>
  let rest := runUpdateStaged w rootDir chan.1 releaseData configureExtractDir
    maxPullers maxPullRetries
  (t ++ rest.1 ++ [.removeAll configureExtractDir], rest.2)

/-- The function `tryLockUpdate`: the effects, and the way the process ends
when the lock is not obtained (`none` when the lock is returned to the caller).
As in the source, the parameter is ignored in favour of `lockfilePath`. -/
def tryLockUpdate (w : World) (_path : String) : List Event × Option Outcome :=
  match w.lockNew lockfilePath with
  | some e => ([.lockNew lockfilePath], some (.panicked e))
  | none =>
    match w.tryLock with
    | .errBusy =>
      ([.lockNew lockfilePath, .tryLock,
        .log "another platconf instance is already running an update", .exit 1],
        some (.exited 1))
    | .failed e =>
      ([.lockNew lockfilePath, .tryLock,
        .log ("Failed to obtain lock " ++ lockfilePath), .log e, .exit 1],
        some (.exited 1))
    | .acquired => ([.lockNew lockfilePath, .tryLock], none)

/-- The method `Opts.Execute` of package `update`.  The deferred `lock.Unlock()`
runs when the function returns; `os.Exit` ends the process without running
deferred calls. -/
def Opts.Execute (w : World) (o : Opts) (_args : List String) : List Event × Outcome :=
  let t : List Event := [.setenv "DOCKER_API_VERSION" "1.22"]
  if o.Pullers < 1 then
    (t, .returned (some "The maximum number of pullers must be > 0"))
  else
    let t := t ++ [.requireRoot]
    match w.requireRoot with
    | some halt => (t, halt.toOutcome)
    | none =>
      let locked := tryLockUpdate w lockfilePath
      let t := t ++ locked.1
      match locked.2 with
      | some out => (t, out)
      | none =>
        let run := runUpdate w o.Channel "/" o.Pullers o.PullRetries
        let t := t ++ run.1
        match run.2 with
        | some errMsg =>
          (t ++ [.button .buttonError, .setStatus "failed" false (some errMsg),
            .stderr errMsg, .exit 1], .exited 1)
        | none => (t ++ [.unlock], .returned none)

end update

/-! ## Package `oldstatus` (oldstatus.go) -/

namespace oldstatus

/-- A `float32` value by its bit pattern; the code only stores and copies it. -/
structure GoFloat32 where
  bits : Nat
  deriving DecidableEq, Repr

/-- The struct `StatusData` without its embedded mutex; `none` is the nil pointer. -/
structure StatusData where
  Status : String
  Progress : Option GoFloat32
  What : Option String
  deriving DecidableEq, Repr

/-- The zero value of `StatusData`, as declared by `var status StatusData`. -/
def StatusData.zero : StatusData :=
  { Status := "", Progress := none, What := none }

/-- The package variable `statusFilePath`. -/
def statusFilePath : String := "/etc/protonet/system/configure-script-status"

/-- A snapshot of the file system: what `os.Open(path)` answers, and the bytes
the opened file holds. -/
abbrev FileSystem := String → Except String String

/-- The JSON library: the outcome of `Decode(&tempStatus)` on the bytes of a
file, starting from a zero `tempStatus`. -/
abbrev Decoder := String → Except String StatusData

/-- The function `updateStatusFromFile`: the record after the call and the error
returned. -/
def updateStatusFromFile (dec : Decoder) (fs : FileSystem) (status : StatusData)
    (filePath : String) : StatusData × Option String :=
  match fs filePath with
  | .error e => (status, some e)
  | .ok f =>
    match dec f with
    | .error e => (status, some e)
    | .ok tempStatus =>
      ({ status with
          Status := tempStatus.Status
          Progress := tempStatus.Progress
          What := tempStatus.What }, none)

/-- The bit `fsnotify.Write` of an event's `Op` mask. -/
def fsnotifyWrite : Nat := 2

/-- What the watcher delivers on its two channels. -/
inductive WatchMsg
  | event (name : String) (op : Nat)
  | error (msg : String)
  deriving DecidableEq, Repr

/-- One pass of the `select` in `watchStatusFileForChange`, with the file system as
it is when the message is received: the record and the lines logged. -/
def watchStep (dec : Decoder) (fs : FileSystem) (status : StatusData) (_filePath : String) :
    WatchMsg → StatusData × List String
  | .event _ op =>
    if op &&& fsnotifyWrite = fsnotifyWrite then
      match updateStatusFromFile dec fs status statusFilePath with
      | (status1, some e) => (status1, ["ERROR: failed to read status from SKVS file: " ++ e])
      | (status1, none) => (status1, [])
    else (status, [])
  | .error e => (status, ["ERROR: failed while watching SKVS update status file: " ++ e])

/-- The `for` loop of `watchStatusFileForChange` run over the messages delivered
so far, each paired with the file system at its delivery. -/
def watchLoop (dec : Decoder) (status : StatusData) (filePath : String) :
    List (FileSystem × WatchMsg) → StatusData × List String
  | [] => (status, [])
  | (fs, msg) :: rest =>
    let s := watchStep dec fs status filePath msg
    let r := watchLoop dec s.1 filePath rest
    (r.1, s.2 ++ r.2)

/-- The answers of the notification library to `NewWatcher()` and `Add(path)`. -/
structure Notify where
  newWatcher : Option String
  add : String → Option String

/-- The function `watchStatusFileForChange` on a finite run of deliveries: either
the set-up ends the process through `log.Fatalf` (`Except.error` with the line
logged), or the loop has processed the deliveries. -/
def watchStatusFileForChange (dec : Decoder) (n : Notify) (status : StatusData)
    (filePath : String) (deliveries : List (FileSystem × WatchMsg)) :
    Except String (StatusData × List String) :=
  match n.newWatcher with
  | some e => .error ("Failed to initalize a file watcher: " ++ e)
  | none =>
    match n.add filePath with
    | some e => .error ("Failed to add file '" ++ filePath ++ "' to the file watcher: " ++ e)
    | none =>
      let r := watchLoop dec status filePath deliveries
      .ok (r.1, ("Status file watcher started on " ++ statusFilePath) :: r.2)

/-- The struct `Opts` of package `oldstatus`. -/
structure Opts where
  Port : Int
  deriving DecidableEq, Repr

/-- The state of the service once `Execute` has reached `http.ListenAndServe`:
the shared record, the path handed to the watcher goroutine if one was started,
the lines logged and the address listened on. -/
structure Service where
  status : StatusData
  watcher : Option String
  logged : List String
  listen : String
  deriving DecidableEq, Repr

/-- The method `Opts.Execute` of package `oldstatus` up to `http.ListenAndServe`. -/
def Opts.Execute (dec : Decoder) (fs : FileSystem) (o : Opts) (_args : List String) : Service :=
  match updateStatusFromFile dec fs StatusData.zero statusFilePath with
  | (status, some e) =>
    { status := status
      watcher := none
      logged := ["ERROR: failed to read status from SKVS file: " ++ e,
        "Starting platform-install-status"]
      listen := ":" ++ toString o.Port }
  | (status, none) =>
    { status := status
      watcher := some statusFilePath
      logged := ["Starting platform-install-status"]
      listen := ":" ++ toString o.Port }

/-- The record the `/json` handler encodes after the service has run over the
given deliveries: the watcher goroutine, when there is one, has processed them.
`none` when `log.Fatalf` in the watcher has ended the process. -/
def getJSON (dec : Decoder) (n : Notify) (svc : Service)
    (deliveries : List (FileSystem × WatchMsg)) : Option StatusData :=
  match svc.watcher with
  | none => some svc.status
  | some p =>
    match watchStatusFileForChange dec n svc.status p deliveries with
    | .ok r => some r.1
    | .error _ => none

/-- A file system holding exactly one file. -/
def singleFile (path content : String) : FileSystem :=
  fun p => if p = path then .ok content else .error ("open " ++ p ++ ": no such file or directory")

/-- The answers of `encoding/json` on the documents used by the package tests:
the empty input ends with `EOF`, and the one-field document sets `status` only.
Every other input is outside this table and is answered with an error. -/
def decodeTable : Decoder := fun bytes =>
  if bytes = "" then .error "EOF"
  else if bytes = "\x7b\"status\": \"foobar1\"\x7d" then
    .ok { Status := "foobar1", Progress := none, What := none }
  else .error "decodeTable: document not in the table"

end oldstatus

/-! ## Reading a trace of the pipeline -/

namespace update

open platconf

/-- The position of a stage in the program order of `runUpdate`. -/
def Stage.index : Stage → Nat
  | .fetchReleaseData => 0
  | .configureLookup => 1
  | .extractConfigure => 2
  | .setupPaths => 3
  | .performOSUpdate => 4
  | .setupUtilityScripts => 5
  | .setupBinaries => 6
  | .pullAllImages => 7
  | .parseAllTemplates => 8
  | .cleanupSystemd => 9
  | .setupUdev => 10
  | .setupSystemD => 11
  | .setupChannelFile => 12
  | .finalize => 13

/-- All stages in program order. -/
def allStages : List Stage :=
  [ .fetchReleaseData, .configureLookup, .extractConfigure, .setupPaths, .performOSUpdate
  , .setupUtilityScripts, .setupBinaries, .pullAllImages, .parseAllTemplates, .cleanupSystemd
  , .setupUdev, .setupSystemD, .setupChannelFile, .finalize ]

/-- The stage calls of a trace with the error each returned, in order. -/
def stageCalls : List Event → List (Stage × Option String)
  | [] => []
  | .stage s _ err :: rest => (s, err) :: stageCalls rest
  | _ :: rest => stageCalls rest

/-- Running a list of stage outcomes in order up to and including the first
failure of a stage other than the OS-level update: the calls made and the
error returned. -/
def runPlan : List (Stage × Option String) → List (Stage × Option String) × Option String
  | [] => ([], none)
  | (s, err) :: rest =>
    match err with
    | none => ((s, none) :: (runPlan rest).1, (runPlan rest).2)
    | some e =>
      if s = .performOSUpdate then ((s, some e) :: (runPlan rest).1, (runPlan rest).2)
      else ([(s, some e)], some e)

/-- The outcome every stage of `runUpdateStaged` has on the given arguments. -/
def stagedPlan (w : World) (rootDir channel : String) (releaseData : ReleaseManifestV2)
    (configureExtractDir : String) (maxPullers maxPullRetries : Int) :
    List (Stage × Option String) :=
  [ (.setupPaths, (setupPaths w rootDir).2)
  , (.performOSUpdate, w.performOSUpdate)
  , (.setupUtilityScripts, w.setupUtilityScripts rootDir configureExtractDir)
  , (.setupBinaries, w.setupBinaries rootDir configureExtractDir)
  , (.pullAllImages, w.pullAllImages releaseData maxPullers maxPullRetries)
  , (.parseAllTemplates, w.parseAllTemplates rootDir configureExtractDir releaseData)
  , (.cleanupSystemd, w.cleanupSystemd rootDir)
  , (.setupUdev, w.setupUdev rootDir configureExtractDir)
  , (.setupSystemD, w.setupSystemD rootDir configureExtractDir)
  , (.setupChannelFile, w.setupChannelFile (w.pathJoin rootDir "etc/protonet/system/channel")
      channel)
  , (.finalize, w.finalize releaseData rootDir) ]

/-- The assignment of outcomes to the stages that the environment makes for one
run of `runUpdate`: for each stage, in program order, the error its collaborator
answers on the arguments `runUpdate` passes to it.  The manifest comes from
`fetchReleaseData`, the configure image from the lookup in that manifest and the
configure directory from `extractConfigure`; a stage whose arguments do not
exist because one of these three failed has no outcome, and the list ends
with the failure. -/
def stageOutcomes (w : World) (specifiedChannel rootDir : String)
    (maxPullers maxPullRetries : Int) : List (Stage × Option String) :=
  match (fetchReleaseData w (w.getChannel specifiedChannel).1).2 with
  | .error e => [(.fetchReleaseData, some e)]
  | .ok releaseData =>
    match releaseData.GetImageByName configureImage with
    | none =>
      [ (.fetchReleaseData, none)
      , (.configureLookup, some "configure image data not found in the manifest") ]
    | some configureImgData =>
      match (extractConfigure w configureImgData.Tag).2 with
      | .error e =>
        [(.fetchReleaseData, none), (.configureLookup, none), (.extractConfigure, some e)]
      | .ok configureExtractDir =>
        (.fetchReleaseData, none) :: (.configureLookup, none) :: (.extractConfigure, none) ::
          stagedPlan w rootDir (w.getChannel specifiedChannel).1 releaseData configureExtractDir
            maxPullers maxPullRetries

end update

/-! ## Sample inputs -/

namespace platconf

/-- The image `ToV2` builds from one map entry. -/
def imageOfEntry (kv : String × String) : ReleaseManifestV2Image :=
  { Name := kv.1, Tag := kv.2, PreDownload := true }

/-- A two-entry image map. -/
def sampleMap : GoMap :=
  { entries := [("quay.io/experimentalplatform/configure", "1.0.3"),
      ("quay.io/experimentalplatform/frontend", "2.1")]
    nodup := by simp }

/-- A V1 manifest over `sampleMap`. -/
def sampleV1 : ReleaseManifestV1 :=
  { Build := 42
    Codename := "soul"
    URL := "https://example.org/notes"
    PublishedAt := "2017-01-30"
    Images := some sampleMap }

/-- The entries of `sampleMap` visited in the opposite order. -/
def sampleIter : List (String × String) :=
  [("quay.io/experimentalplatform/frontend", "2.1"),
    ("quay.io/experimentalplatform/configure", "1.0.3")]

end platconf

namespace update

open platconf

/-- A host on which every collaborator succeeds and the lock is free, but the
network is unreachable: every `http.Get` fails. -/
def offlineWorld : World :=
  { http := fun _ => .netError "dial tcp: network is unreachable"
    unmarshalV2 := fun _ => .error "unexpected end of JSON input"
    unmarshalV1 := fun _ => .error "unexpected end of JSON input"
    rangeOrder := fun m => mapEntries m.Images
    pathJoin := fun a b => a ++ b
    mkdirAll := fun _ => none
    tempDir := .ok "/tmp/platconf_1"
    pullImage := fun _ _ => none
    extractDockerImage := fun _ _ _ => none
    statNotExist := fun _ => false
    getChannel := fun c => (c, "flag")
    performOSUpdate := none
    setupUtilityScripts := fun _ _ => none
    setupBinaries := fun _ _ => none
    pullAllImages := fun _ _ _ => none
    parseAllTemplates := fun _ _ _ => none
    cleanupSystemd := fun _ => none
    setupUdev := fun _ _ => none
    setupSystemD := fun _ _ => none
    setupChannelFile := fun _ _ => none
    finalize := fun _ _ => none
    requireRoot := none
    lockNew := fun _ => none
    tryLock := .acquired }

/-- A manifest that lists the configure image. -/
def sampleV2 : ReleaseManifestV2 :=
  { Build := 42
    Codename := "soul"
    ReleaseNotesURL := "https://example.org/notes"
    PublishedAt := "2017-01-30"
    Images := some [{ Name := configureImage, Tag := "1.0.3", PreDownload := true }] }

/-- A host on which the V2 endpoint serves `sampleV2` and every collaborator
succeeds. -/
def healthyWorld : World :=
  { offlineWorld with
    http := fun _ => .response 200 (.ok "manifest")
    unmarshalV2 := fun _ => .ok sampleV2 }

/-- The healthy host, except that pulling the images fails. -/
def pullFailsWorld : World :=
  { healthyWorld with pullAllImages := fun _ _ _ => some "pull failed after 5 attempts" }

/-- A host on which only the legacy endpoint exists: the V2 endpoint answers 404,
the V1 endpoint serves an array holding `sampleV1` alone. -/
def legacyWorld : World :=
  { offlineWorld with
    http := fun url =>
      if url = urlV1 "stable" then .response 200 (.ok "legacy manifest") else .response 404 (.ok "")
    unmarshalV1 := fun _ => .ok [sampleV1] }

/-- The options `platconf update --channel stable` runs with (default pullers
and retries). -/
def sampleOpts : Opts :=
  { Channel := "stable", Pullers := 4, PullRetries := 5 }

end update

namespace oldstatus

/-- A notification library that works: the watcher is created and the path added. -/
def notifyOk : Notify :=
  { newWatcher := none, add := fun _ => none }

/-- The temporary file of `TestFileWatcher`. -/
def tmpStatusFile : String := "/tmp/platconf-unittest-123"

/-- The document both tests write first. -/
def docFoobar1 : String := "\x7b\"status\": \"foobar1\"\x7d"

/-- The default options of the status command. -/
def defaultOpts : Opts := { Port := 7887 }

/-- A record in which all three fields are set. -/
def busyStatus : StatusData :=
  { Status := "pulling", Progress := some { bits := 1056964608 }, What := some "frontend" }

end oldstatus

/-! ## Manifests: migration and lookup -/

namespace platconf

theorem foldl_toV2Step_images (iter : List (String × String)) :
    ∀ (v2 : ReleaseManifestV2) (acc : List ReleaseManifestV2Image), v2.Images = some acc →
      (iter.foldl toV2Step v2).Images = some (acc ++ iter.map imageOfEntry) := by
  induction iter with
  | nil => intro v2 acc h; simpa using h
  | cons kv rest ih =>
    intro v2 acc h
    have hstep : (toV2Step v2 kv).Images = some (acc ++ [imageOfEntry kv]) := by
      simp [toV2Step, goAppend, sliceElems, h, imageOfEntry]
    simpa [List.append_assoc] using ih (toV2Step v2 kv) (acc ++ [imageOfEntry kv]) hstep

theorem toV2_images (rm : ReleaseManifestV1) (iter : List (String × String)) :
    (rm.ToV2 iter).Images = some (iter.map imageOfEntry) := by
  simpa [ReleaseManifestV1.ToV2] using foldl_toV2Step_images iter _ [] rfl

theorem getImageLoop_eq_none (n : String) (imgs : List ReleaseManifestV2Image) :
    getImageLoop n imgs = none ↔ ∀ img ∈ imgs, img.Name ≠ n := by
  induction imgs with
  | nil => simp [getImageLoop]
  | cons img rest ih =>
    by_cases h : img.Name = n
    · simp [getImageLoop, h]
    · simp [getImageLoop, h, ih]

theorem getImageLoop_eq_some (n : String) (imgs : List ReleaseManifestV2Image)
    (img : ReleaseManifestV2Image) :
    getImageLoop n imgs = some img ↔
      ∃ pre post, imgs = pre ++ img :: post ∧ img.Name = n ∧ ∀ x ∈ pre, x.Name ≠ n := by
  induction imgs with
  | nil => simp [getImageLoop]
  | cons hd rest ih =>
    by_cases h : hd.Name = n
    · simp only [getImageLoop, h, if_true, Option.some.injEq]
      constructor
      · intro e
        subst e
        exact ⟨[], rest, rfl, h, by simp⟩
      · rintro ⟨pre, post, hsplit, hname, hpre⟩
        cases pre with
        | nil => simpa using (List.cons.inj hsplit).1
        | cons p ps =>
          have hp : hd = p := (List.cons.inj hsplit).1
          exact absurd (hp ▸ h) (hpre p (by simp))
    · simp only [getImageLoop, h, if_false, ih]
      constructor
      · rintro ⟨pre, post, hsplit, hname, hpre⟩
        refine ⟨hd :: pre, post, by simp [hsplit], hname, ?_⟩
        intro x hx
        rcases List.mem_cons.mp hx with rfl | hx
        · exact h
        · exact hpre x hx
      · rintro ⟨pre, post, hsplit, hname, hpre⟩
        cases pre with
        | nil =>
          have hp : hd = img := (List.cons.inj hsplit).1
          exact absurd (hp ▸ hname) h
        | cons p ps =>
          exact ⟨ps, post, (List.cons.inj hsplit).2, hname,
            fun x hx => hpre x (List.mem_cons_of_mem _ hx)⟩

theorem getImageLoop_of_mem_nodup (n tag : String) (l : List (String × String))
    (hnd : (l.map Prod.fst).Nodup) (hmem : (n, tag) ∈ l) :
    getImageLoop n (l.map imageOfEntry) =
      some { Name := n, Tag := tag, PreDownload := true } := by
  induction l with
  | nil => simp at hmem
  | cons kv rest ih =>
    have hnd2 : kv.1 ∉ rest.map Prod.fst ∧ (rest.map Prod.fst).Nodup := by
      simpa using hnd
    by_cases h : kv.1 = n
    · rcases List.mem_cons.mp hmem with heq | hin
      · subst heq
        simp [getImageLoop, imageOfEntry]
      · exact absurd (List.mem_map.mpr ⟨(n, tag), hin, h.symm⟩) hnd2.1
    · rcases List.mem_cons.mp hmem with heq | hin
      · exact absurd (by rw [← heq]) h
      · simp only [List.map_cons, getImageLoop, imageOfEntry, h, if_false]
        exact ih hnd2.2 hin

theorem find_key_of_mem_nodup (n tag : String) (l : List (String × String))
    (hnd : (l.map Prod.fst).Nodup) (hmem : (n, tag) ∈ l) :
    l.find? (fun e => decide (e.1 = n)) = some (n, tag) := by
  induction l with
  | nil => simp at hmem
  | cons kv rest ih =>
    have hnd2 : kv.1 ∉ rest.map Prod.fst ∧ (rest.map Prod.fst).Nodup := by
      simpa using hnd
    by_cases h : kv.1 = n
    · rcases List.mem_cons.mp hmem with heq | hin
      · subst heq
        simp
      · exact absurd (List.mem_map.mpr ⟨(n, tag), hin, h.symm⟩) hnd2.1
    · rcases List.mem_cons.mp hmem with heq | hin
      · exact absurd (by rw [← heq]) h
      · simp only [List.find?_cons, h, decide_False]
        exact ih hnd2.2 hin

theorem mapEntries_nodup (m : Option GoMap) : ((mapEntries m).map Prod.fst).Nodup := by
  cases m with
  | none => simp [mapEntries]
  | some g => exact g.nodup

end platconf

namespace platconf

/-- C5: for every V1 manifest and every order in which `range` visits its image
map, `ToV2` yields a non-nil image list with exactly as many images as the map
has entries, the list being a permutation of the entries each turned into an
image with name = key, tag = value and `PreDownload = true`; a map without
entries (empty or nil) yields the empty non-nil list. -/
theorem toV2_one_image_per_entry (rm : ReleaseManifestV1) (iter : List (String × String))
    (h : RangeOrder rm.Images iter) :
    ∃ imgs, (rm.ToV2 iter).Images = some imgs ∧
      imgs.length = (mapEntries rm.Images).length ∧
      imgs.Perm ((mapEntries rm.Images).map
        (fun kv => { Name := kv.1, Tag := kv.2, PreDownload := true })) ∧
      (∀ img ∈ imgs, img.PreDownload = true ∧ (img.Name, img.Tag) ∈ mapEntries rm.Images) ∧
      (mapEntries rm.Images = [] → imgs = []) := by
  refine ⟨iter.map imageOfEntry, toV2_images rm iter, ?_, ?_, ?_, ?_⟩
  · simpa using h.length_eq
  · exact h.map imageOfEntry
  · intro img himg
    obtain ⟨kv, hkv, rfl⟩ := List.mem_map.mp himg
    exact ⟨rfl, h.subset hkv⟩
  · intro hnil
    have : iter = [] := by
      have hp : iter.Perm [] := hnil ▸ h
      exact List.Perm.eq_nil hp
    simp [this]

/-- Witness for C5 on the two-entry sample map visited in reverse order. -/
theorem toV2_one_image_per_entry_witness :
    RangeOrder sampleV1.Images sampleIter ∧
    ∃ imgs, (sampleV1.ToV2 sampleIter).Images = some imgs ∧
      imgs.length = (mapEntries sampleV1.Images).length ∧
      imgs.Perm ((mapEntries sampleV1.Images).map
        (fun kv => { Name := kv.1, Tag := kv.2, PreDownload := true })) ∧
      (∀ img ∈ imgs, img.PreDownload = true ∧
        (img.Name, img.Tag) ∈ mapEntries sampleV1.Images) ∧
      (mapEntries sampleV1.Images = [] → imgs = []) :=
  ⟨List.Perm.swap _ _ _, toV2_one_image_per_entry sampleV1 sampleIter (List.Perm.swap _ _ _)⟩

/-- C6: lookup after migration agrees with the V1 map whatever order `range`
visited it in: the lookup of `n` is nil exactly when `n` is not a key, a key is
always indexed by the map, and when the map holds `tag` under `n` the lookup
returns the image `{n, tag, true}`; two visiting orders give the same lookup. -/
theorem lookup_after_toV2 (rm : ReleaseManifestV1) (iter : List (String × String))
    (h : RangeOrder rm.Images iter) (n : String) :
    ((rm.ToV2 iter).GetImageByName n = none ↔ n ∉ (mapEntries rm.Images).map Prod.fst) ∧
    (n ∈ (mapEntries rm.Images).map Prod.fst → ∃ tag, mapIndex rm.Images n = some tag) ∧
    (∀ tag, mapIndex rm.Images n = some tag →
      (rm.ToV2 iter).GetImageByName n = some { Name := n, Tag := tag, PreDownload := true }) ∧
    (∀ iter2, RangeOrder rm.Images iter2 →
      (rm.ToV2 iter2).GetImageByName n = (rm.ToV2 iter).GetImageByName n) := by
  have hnd := mapEntries_nodup rm.Images
  have key : ∀ it, RangeOrder rm.Images it → ∀ tag, (n, tag) ∈ mapEntries rm.Images →
      (rm.ToV2 it).GetImageByName n = some { Name := n, Tag := tag, PreDownload := true } := by
    intro it hit tag hmem
    have hnd2 : (it.map Prod.fst).Nodup := ((hit.map Prod.fst).nodup_iff).mpr hnd
    simpa [ReleaseManifestV2.GetImageByName, toV2_images, sliceElems] using
      getImageLoop_of_mem_nodup n tag it hnd2 (hit.symm.subset hmem)
  have absent : ∀ it, RangeOrder rm.Images it → n ∉ (mapEntries rm.Images).map Prod.fst →
      (rm.ToV2 it).GetImageByName n = none := by
    intro it hit hn
    simp only [ReleaseManifestV2.GetImageByName, toV2_images, sliceElems,
      getImageLoop_eq_none]
    intro img himg hname
    obtain ⟨kv, hkv, rfl⟩ := List.mem_map.mp himg
    exact hn (List.mem_map.mpr ⟨kv, hit.subset hkv, hname⟩)
  refine ⟨⟨?_, absent iter h⟩, ?_, ?_, ?_⟩
  · intro hnone hn
    obtain ⟨kv, hkv, hk⟩ := List.mem_map.mp hn
    have := key iter h kv.2 (by rw [← hk]; exact hkv)
    rw [hnone] at this
    exact Option.noConfusion this
  · intro hn
    obtain ⟨kv, hkv, hk⟩ := List.mem_map.mp hn
    refine ⟨kv.2, ?_⟩
    have hmem : (n, kv.2) ∈ mapEntries rm.Images := by rw [← hk]; exact hkv
    simp [mapIndex, find_key_of_mem_nodup n kv.2 _ hnd hmem]
  · intro tag htag
    apply key iter h
    unfold mapIndex at htag
    obtain ⟨kv, hfind, hsnd⟩ := Option.map_eq_some'.mp htag
    have h1 := List.mem_of_find?_eq_some hfind
    have h2 := List.find?_some hfind
    simp only [decide_eq_true_eq] at h2
    have : kv = (n, tag) := Prod.ext h2 hsnd
    exact this ▸ h1
  · intro iter2 h2
    by_cases hn : n ∈ (mapEntries rm.Images).map Prod.fst
    · obtain ⟨kv, hkv, hk⟩ := List.mem_map.mp hn
      have hmem : (n, kv.2) ∈ mapEntries rm.Images := by rw [← hk]; exact hkv
      rw [key iter h kv.2 hmem, key iter2 h2 kv.2 hmem]
    · rw [absent iter h hn, absent iter2 h2 hn]

/-- Witness for C6 on the sample map visited in reverse order, looking up the
configure image. -/
theorem lookup_after_toV2_witness :
    RangeOrder sampleV1.Images sampleIter ∧
    (((sampleV1.ToV2 sampleIter).GetImageByName "quay.io/experimentalplatform/configure" = none ↔
        "quay.io/experimentalplatform/configure" ∉ (mapEntries sampleV1.Images).map Prod.fst) ∧
    ("quay.io/experimentalplatform/configure" ∈ (mapEntries sampleV1.Images).map Prod.fst →
      ∃ tag, mapIndex sampleV1.Images "quay.io/experimentalplatform/configure" = some tag) ∧
    (∀ tag, mapIndex sampleV1.Images "quay.io/experimentalplatform/configure" = some tag →
      (sampleV1.ToV2 sampleIter).GetImageByName "quay.io/experimentalplatform/configure" =
        some { Name := "quay.io/experimentalplatform/configure", Tag := tag,
               PreDownload := true }) ∧
    (∀ iter2, RangeOrder sampleV1.Images iter2 →
      (sampleV1.ToV2 iter2).GetImageByName "quay.io/experimentalplatform/configure" =
        (sampleV1.ToV2 sampleIter).GetImageByName "quay.io/experimentalplatform/configure")) :=
  ⟨List.Perm.swap _ _ _,
    lookup_after_toV2 sampleV1 sampleIter (List.Perm.swap _ _ _)
      "quay.io/experimentalplatform/configure"⟩

/-- C7: `GetImageByName` returns nil exactly when no image of the list has a
name equal to `n`, and returns `img` exactly when `img` is the first image in
list order whose name equals `n`; equality is exact, so a name that differs
in letter case only is not found. -/
theorem getImageByName_first_exact_match (rm : ReleaseManifestV2) (n : String) :
    (rm.GetImageByName n = none ↔ ∀ img ∈ sliceElems rm.Images, img.Name ≠ n) ∧
    (∀ img, rm.GetImageByName n = some img ↔
      ∃ pre post, sliceElems rm.Images = pre ++ img :: post ∧ img.Name = n ∧
        ∀ x ∈ pre, x.Name ≠ n) ∧
    ({ rm with Images := some [{ Name := "quay.io/Configure", Tag := "1", PreDownload := true }] }
      : ReleaseManifestV2).GetImageByName "quay.io/configure" = none := by
  refine ⟨getImageLoop_eq_none n _, fun img => getImageLoop_eq_some n _ img, ?_⟩
  simp [ReleaseManifestV2.GetImageByName, sliceElems, getImageLoop]

end platconf

/-! ## Manifest resolution: V2 first, one fallback to V1 -/

namespace update

open platconf

theorem urlV1_ne_urlV2 (channel : String) : urlV1 channel ≠ urlV2 channel := by
  intro h
  have hlen := congrArg String.length h
  have h1 : "https://raw.githubusercontent.com/protonet/builds/master/".length = 57 := by decide
  have h2 :
      "https://raw.githubusercontent.com/protonet/builds/master/manifest-v2/".length = 69 := by
    decide
  simp only [urlV1, urlV2, String.length_append, h1, h2] at hlen
  omega

theorem fetchReleaseDataV2_trace (w : World) (channel : String) :
    (fetchReleaseDataV2 w channel).1 = [.httpGet (urlV2 channel)] := by
  unfold fetchReleaseDataV2 fetchReleaseJSONv2
  cases readResponse channel (w.http (urlV2 channel)) with
  | error e => rfl
  | ok data =>
    simp only
    cases w.unmarshalV2 data <;> rfl

theorem fetchReleaseDataV1_trace (w : World) (channel : String) :
    (fetchReleaseDataV1 w channel).1 = [.httpGet (urlV1 channel)] := by
  unfold fetchReleaseDataV1 fetchReleaseJSONv1
  cases readResponse channel (w.http (urlV1 channel)) with
  | error e => rfl
  | ok data =>
    simp only
    cases w.unmarshalV1 data with
    | error e => rfl
    | ok manifest =>
      simp only
      split
      · rfl
      · split <;> rfl

theorem fetchReleaseData_of_v2_ok (w : World) (channel : String) (data : ReleaseManifestV2)
    (h : (fetchReleaseDataV2 w channel).2 = .ok data) :
    fetchReleaseData w channel = ([.httpGet (urlV2 channel)], .ok data) := by
  have ht := fetchReleaseDataV2_trace w channel
  unfold fetchReleaseData
  rcases hv : fetchReleaseDataV2 w channel with ⟨t2, r2⟩
  rw [hv] at h ht
  simp only at h ht
  subst h ht
  rfl

theorem fetchReleaseData_of_v2_error (w : World) (channel e : String)
    (h : (fetchReleaseDataV2 w channel).2 = .error e) :
    fetchReleaseData w channel =
      ([.httpGet (urlV2 channel), .log ("Couldnt fetch manifest v2: " ++ e ++ "\n"),
          .log "Trying v1\n", .httpGet (urlV1 channel)],
        match (fetchReleaseDataV1 w channel).2 with
        | .error e1 => .error e1
        | .ok dataV1 => .ok (dataV1.ToV2 (w.rangeOrder dataV1))) := by
  have ht := fetchReleaseDataV2_trace w channel
  have ht1 := fetchReleaseDataV1_trace w channel
  unfold fetchReleaseData
  rcases hv : fetchReleaseDataV2 w channel with ⟨t2, r2⟩
  rcases hv1 : fetchReleaseDataV1 w channel with ⟨t1, r1⟩
  rw [hv] at h ht
  rw [hv1] at ht1
  simp only at h ht ht1
  subst h ht ht1
  cases r1 <;> rfl

theorem fetchReleaseDataV2_result (w : World) (channel : String) :
    (fetchReleaseDataV2 w channel).2 =
      match readResponse channel (w.http (urlV2 channel)) with
      | .error e => .error e
      | .ok data => w.unmarshalV2 data := by
  unfold fetchReleaseDataV2 fetchReleaseJSONv2
  cases readResponse channel (w.http (urlV2 channel)) with
  | error e => rfl
  | ok data =>
    simp only
    cases w.unmarshalV2 data <;> rfl

/-- C8: `fetchReleaseData` queries the V2 endpoint once; when the V2 fetch
succeeds its manifest is returned unchanged and the V1 endpoint is not queried;
when the V2 fetch fails (a transport error, a 404 or any other status but 200, a
body that cannot be read, a document that cannot be decoded) the V1 endpoint is
queried exactly once, a V1 success is returned as its `ToV2` migration and a V1
error is returned as is; an error is returned iff both fetches fail. -/
theorem fetchReleaseData_single_fallback (w : World) (channel : String) :
    (fetchReleaseData w channel).1.count (.httpGet (urlV2 channel)) = 1 ∧
    (∀ data, (fetchReleaseDataV2 w channel).2 = .ok data →
      (fetchReleaseData w channel).2 = .ok data ∧
      (fetchReleaseData w channel).1.count (.httpGet (urlV1 channel)) = 0) ∧
    (∀ e, (fetchReleaseDataV2 w channel).2 = .error e →
      (fetchReleaseData w channel).1.count (.httpGet (urlV1 channel)) = 1 ∧
      (∀ m, (fetchReleaseDataV1 w channel).2 = .ok m →
        (fetchReleaseData w channel).2 = .ok (m.ToV2 (w.rangeOrder m))) ∧
      (∀ e1, (fetchReleaseDataV1 w channel).2 = .error e1 →
        (fetchReleaseData w channel).2 = .error e1)) ∧
    ((∃ e, (fetchReleaseData w channel).2 = .error e) ↔
      (∃ e2, (fetchReleaseDataV2 w channel).2 = .error e2) ∧
      (∃ e1, (fetchReleaseDataV1 w channel).2 = .error e1)) ∧
    ((∃ msg, w.http (urlV2 channel) = .netError msg) ∨
      (∃ status body, w.http (urlV2 channel) = .response status body ∧ status ≠ 200) ∨
      (∃ msg, w.http (urlV2 channel) = .response 200 (.error msg)) ∨
      (∃ data msg, w.http (urlV2 channel) = .response 200 (.ok data) ∧
        w.unmarshalV2 data = .error msg) →
      (fetchReleaseData w channel).1.count (.httpGet (urlV1 channel)) = 1) := by
  have hne := urlV1_ne_urlV2 channel
  have hne2 : (IOEvent.httpGet (urlV2 channel) == IOEvent.httpGet (urlV1 channel)) = false := by
    simpa using fun h => hne h.symm
  have hne1 : (IOEvent.httpGet (urlV1 channel) == IOEvent.httpGet (urlV2 channel)) = false := by
    simpa using hne
  have okCase : ∀ data, (fetchReleaseDataV2 w channel).2 = .ok data →
      fetchReleaseData w channel = ([.httpGet (urlV2 channel)], .ok data) :=
    fetchReleaseData_of_v2_ok w channel
  have errCount : ∀ e, (fetchReleaseDataV2 w channel).2 = .error e →
      (fetchReleaseData w channel).1.count (.httpGet (urlV1 channel)) = 1 := by
    intro e he
    rw [fetchReleaseData_of_v2_error w channel e he]
    simp [List.count_cons, hne2]
  refine ⟨?_, ?_, ?_, ?_, ?_⟩
  · cases hv : (fetchReleaseDataV2 w channel).2 with
    | ok data => rw [okCase data hv]; simp
    | error e =>
      rw [fetchReleaseData_of_v2_error w channel e hv]
      simp [List.count_cons, hne1]
  · intro data hd
    rw [okCase data hd]
    exact ⟨rfl, by simp [List.count_cons, hne2]⟩
  · intro e he
    refine ⟨errCount e he, ?_, ?_⟩
    · intro m hm
      rw [fetchReleaseData_of_v2_error w channel e he, hm]
    · intro e1 he1
      rw [fetchReleaseData_of_v2_error w channel e he, he1]
  · constructor
    · rintro ⟨e, he⟩
      cases hv : (fetchReleaseDataV2 w channel).2 with
      | ok data =>
        rw [okCase data hv] at he
        exact Except.noConfusion he
      | error e2 =>
        refine ⟨⟨e2, rfl⟩, ?_⟩
        rw [fetchReleaseData_of_v2_error w channel e2 hv] at he
        cases hv1 : (fetchReleaseDataV1 w channel).2 with
        | error e1 => exact ⟨e1, rfl⟩
        | ok m =>
          rw [hv1] at he
          exact Except.noConfusion he
    · rintro ⟨⟨e2, he2⟩, ⟨e1, he1⟩⟩
      refine ⟨e1, ?_⟩
      rw [fetchReleaseData_of_v2_error w channel e2 he2, he1]
  · intro hfail
    have hres := fetchReleaseDataV2_result w channel
    rcases hfail with ⟨msg, h⟩ | ⟨status, body, h, hs⟩ | ⟨msg, h⟩ | ⟨data, msg, h, hd⟩
    · rw [h] at hres
      exact errCount _ hres
    · rw [h] at hres
      by_cases h404 : status = 404
      · simp only [readResponse, hs, h404, if_false, if_true] at hres
        exact errCount _ hres
      · simp only [readResponse, hs, h404, if_false] at hres
        exact errCount _ hres
    · rw [h] at hres
      exact errCount _ hres
    · rw [h] at hres
      simp only [readResponse, if_true, hd] at hres
      exact errCount _ hres

end update

/-! ## The pipeline is fail-fast -/

namespace update

open platconf

theorem stageCalls_append (a b : List Event) :
    stageCalls (a ++ b) = stageCalls a ++ stageCalls b := by
  induction a with
  | nil => rfl
  | cons ev rest ih => cases ev <;> simp [stageCalls, ih]

theorem stageCalls_seedHostname (w : World) (path : String) :
    stageCalls (seedHostname w path) = [] := by
  unfold seedHostname
  split <;> rfl

theorem stageCalls_logOSUpdate (err : Option String) : stageCalls (logOSUpdate err) = [] := by
  cases err <;> rfl

theorem mem_stageCalls (tr : List Event) (s : Stage) (err : Option String) :
    (s, err) ∈ stageCalls tr ↔ ∃ io, Event.stage s io err ∈ tr := by
  induction tr with
  | nil => simp [stageCalls]
  | cons ev rest ih =>
    cases ev <;> simp [stageCalls, ih]
    case stage s1 io1 err1 =>
      constructor
      · rintro (⟨rfl, rfl⟩ | ⟨io, h⟩)
        · exact ⟨io1, Or.inl ⟨rfl, rfl, rfl⟩⟩
        · exact ⟨io, Or.inr h⟩
      · rintro ⟨io, (⟨rfl, -, rfl⟩ | h)⟩
        · exact Or.inl ⟨rfl, rfl⟩
        · exact Or.inr ⟨io, h⟩

theorem reboot_not_mem_seedHostname (w : World) (path : String) :
    Event.reboot ∉ seedHostname w path := by
  unfold seedHostname
  split <;> simp

theorem reboot_not_mem_logOSUpdate (err : Option String) : Event.reboot ∉ logOSUpdate err := by
  cases err <;> simp [logOSUpdate]

theorem unlock_not_mem_seedHostname (w : World) (path : String) :
    Event.unlock ∉ seedHostname w path := by
  unfold seedHostname
  split <;> simp

theorem unlock_not_mem_logOSUpdate (err : Option String) : Event.unlock ∉ logOSUpdate err := by
  cases err <;> simp [logOSUpdate]

theorem setStatus_not_mem_seedHostname (w : World) (path st : String) (hp : Bool)
    (wh : Option String) : Event.setStatus st hp wh ∉ seedHostname w path := by
  unfold seedHostname
  split <;> simp

theorem setStatus_not_mem_logOSUpdate (err : Option String) (st : String) (hp : Bool)
    (wh : Option String) : Event.setStatus st hp wh ∉ logOSUpdate err := by
  cases err <;> simp [logOSUpdate]

theorem runPlan_nil : runPlan [] = ([], none) := rfl

theorem runPlan_cons_none (s : Stage) (rest : List (Stage × Option String)) :
    runPlan ((s, none) :: rest) = ((s, none) :: (runPlan rest).1, (runPlan rest).2) := rfl

theorem runPlan_cons_osUpdate (err : Option String) (rest : List (Stage × Option String)) :
    runPlan ((Stage.performOSUpdate, err) :: rest) =
      ((Stage.performOSUpdate, err) :: (runPlan rest).1, (runPlan rest).2) := by
  cases err <;> simp [runPlan]

theorem runPlan_cons_fail (s : Stage) (e : String) (rest : List (Stage × Option String))
    (hs : s ≠ .performOSUpdate) : runPlan ((s, some e) :: rest) = ([(s, some e)], some e) := by
  simp [runPlan, hs]

theorem runUpdateStaged_plan (w : World) (rootDir channel : String) (rd : ReleaseManifestV2)
    (dir : String) (p r : Int) :
    stageCalls (runUpdateStaged w rootDir channel rd dir p r).1 =
      (runPlan (stagedPlan w rootDir channel rd dir p r)).1 ∧
    (runUpdateStaged w rootDir channel rd dir p r).2 =
      (runPlan (stagedPlan w rootDir channel rd dir p r)).2 ∧
    (Event.reboot ∈ (runUpdateStaged w rootDir channel rd dir p r).1 ↔
      (runUpdateStaged w rootDir channel rd dir p r).2 = none) ∧
    (∀ hp wh, Event.setStatus "done" hp wh ∈ (runUpdateStaged w rootDir channel rd dir p r).1 →
      (runUpdateStaged w rootDir channel rd dir p r).2 = none) ∧
    Event.unlock ∉ (runUpdateStaged w rootDir channel rd dir p r).1 := by
  simp only [runUpdateStaged, stagedPlan]
  rcases h0 : (setupPaths w rootDir).2 with _ | e0
  swap
  · simp [runPlan_cons_fail, stageCalls]
  rcases h1 : w.setupUtilityScripts rootDir dir with _ | e1
  swap
  · simp [runPlan_nil, runPlan_cons_none, runPlan_cons_osUpdate, runPlan_cons_fail, stageCalls,
      stageCalls_append, stageCalls_seedHostname, stageCalls_logOSUpdate,
      reboot_not_mem_seedHostname, reboot_not_mem_logOSUpdate,
      setStatus_not_mem_seedHostname, setStatus_not_mem_logOSUpdate,
      unlock_not_mem_seedHostname, unlock_not_mem_logOSUpdate]
  rcases h2 : w.setupBinaries rootDir dir with _ | e2
  swap
  · simp [runPlan_nil, runPlan_cons_none, runPlan_cons_osUpdate, runPlan_cons_fail, stageCalls,
      stageCalls_append, stageCalls_seedHostname, stageCalls_logOSUpdate,
      reboot_not_mem_seedHostname, reboot_not_mem_logOSUpdate,
      setStatus_not_mem_seedHostname, setStatus_not_mem_logOSUpdate,
      unlock_not_mem_seedHostname, unlock_not_mem_logOSUpdate]
  rcases h3 : w.pullAllImages rd p r with _ | e3
  swap
  · simp [runPlan_nil, runPlan_cons_none, runPlan_cons_osUpdate, runPlan_cons_fail, stageCalls,
      stageCalls_append, stageCalls_seedHostname, stageCalls_logOSUpdate,
      reboot_not_mem_seedHostname, reboot_not_mem_logOSUpdate,
      setStatus_not_mem_seedHostname, setStatus_not_mem_logOSUpdate,
      unlock_not_mem_seedHostname, unlock_not_mem_logOSUpdate]
  rcases h4 : w.parseAllTemplates rootDir dir rd with _ | e4
  swap
  · simp [runPlan_nil, runPlan_cons_none, runPlan_cons_osUpdate, runPlan_cons_fail, stageCalls,
      stageCalls_append, stageCalls_seedHostname, stageCalls_logOSUpdate,
      reboot_not_mem_seedHostname, reboot_not_mem_logOSUpdate,
      setStatus_not_mem_seedHostname, setStatus_not_mem_logOSUpdate,
      unlock_not_mem_seedHostname, unlock_not_mem_logOSUpdate]
  rcases h5 : w.cleanupSystemd rootDir with _ | e5
  swap
  · simp [runPlan_nil, runPlan_cons_none, runPlan_cons_osUpdate, runPlan_cons_fail, stageCalls,
      stageCalls_append, stageCalls_seedHostname, stageCalls_logOSUpdate,
      reboot_not_mem_seedHostname, reboot_not_mem_logOSUpdate,
      setStatus_not_mem_seedHostname, setStatus_not_mem_logOSUpdate,
      unlock_not_mem_seedHostname, unlock_not_mem_logOSUpdate]
  rcases h6 : w.setupUdev rootDir dir with _ | e6
  swap
  · simp [runPlan_nil, runPlan_cons_none, runPlan_cons_osUpdate, runPlan_cons_fail, stageCalls,
      stageCalls_append, stageCalls_seedHostname, stageCalls_logOSUpdate,
      reboot_not_mem_seedHostname, reboot_not_mem_logOSUpdate,
      setStatus_not_mem_seedHostname, setStatus_not_mem_logOSUpdate,
      unlock_not_mem_seedHostname, unlock_not_mem_logOSUpdate]
  rcases h7 : w.setupSystemD rootDir dir with _ | e7
  swap
  · simp [runPlan_nil, runPlan_cons_none, runPlan_cons_osUpdate, runPlan_cons_fail, stageCalls,
      stageCalls_append, stageCalls_seedHostname, stageCalls_logOSUpdate,
      reboot_not_mem_seedHostname, reboot_not_mem_logOSUpdate,
      setStatus_not_mem_seedHostname, setStatus_not_mem_logOSUpdate,
      unlock_not_mem_seedHostname, unlock_not_mem_logOSUpdate]
  rcases h8 : w.setupChannelFile (w.pathJoin rootDir "etc/protonet/system/channel") channel with _ | e8
  swap
  · simp [runPlan_nil, runPlan_cons_none, runPlan_cons_osUpdate, runPlan_cons_fail, stageCalls,
      stageCalls_append, stageCalls_seedHostname, stageCalls_logOSUpdate,
      reboot_not_mem_seedHostname, reboot_not_mem_logOSUpdate,
      setStatus_not_mem_seedHostname, setStatus_not_mem_logOSUpdate,
      unlock_not_mem_seedHostname, unlock_not_mem_logOSUpdate]
  rcases h9 : w.finalize rd rootDir with _ | e9
  swap
  · simp [runPlan_nil, runPlan_cons_none, runPlan_cons_osUpdate, runPlan_cons_fail, stageCalls,
      stageCalls_append, stageCalls_seedHostname, stageCalls_logOSUpdate,
      reboot_not_mem_seedHostname, reboot_not_mem_logOSUpdate,
      setStatus_not_mem_seedHostname, setStatus_not_mem_logOSUpdate,
      unlock_not_mem_seedHostname, unlock_not_mem_logOSUpdate]
  simp [runPlan_nil, runPlan_cons_none, runPlan_cons_osUpdate, runPlan_cons_fail, stageCalls,
      stageCalls_append, stageCalls_seedHostname, stageCalls_logOSUpdate,
      reboot_not_mem_seedHostname, reboot_not_mem_logOSUpdate,
      setStatus_not_mem_seedHostname, setStatus_not_mem_logOSUpdate,
      unlock_not_mem_seedHostname, unlock_not_mem_logOSUpdate]

theorem runPlan_calls_subset (pl : List (Stage × Option String)) :
    ∀ c ∈ (runPlan pl).1, c ∈ pl := by
  induction pl with
  | nil => simp [runPlan]
  | cons hd rest ih =>
    obtain ⟨s, err⟩ := hd
    cases err with
    | none =>
      intro c hc
      rcases List.mem_cons.mp hc with rfl | hc
      · exact List.mem_cons_self _ _
      · exact List.mem_cons_of_mem _ (ih c hc)
    | some e =>
      by_cases hs : s = .performOSUpdate
      · subst hs
        rw [runPlan_cons_osUpdate]
        intro c hc
        rcases List.mem_cons.mp hc with rfl | hc
        · exact List.mem_cons_self _ _
        · exact List.mem_cons_of_mem _ (ih c hc)
      · rw [runPlan_cons_fail s e rest hs]
        intro c hc
        rcases List.mem_singleton.mp hc with rfl
        exact List.mem_cons_self _ _

theorem runPlan_failed_call (pl : List (Stage × Option String))
    (hsorted : pl.Pairwise (fun a b => a.1.index < b.1.index)) (s : Stage) (e : String)
    (hs : s ≠ .performOSUpdate) (hmem : (s, some e) ∈ (runPlan pl).1) :
    (runPlan pl).2 = some e ∧
    ∀ c ∈ (runPlan pl).1, c.1.index ≤ s.index ∧
      (c.1 ≠ .performOSUpdate → c.1 ≠ s → c.2 = none) := by
  induction pl with
  | nil => simp [runPlan] at hmem
  | cons hd rest ih =>
    obtain ⟨s0, err0⟩ := hd
    have hrest := (List.pairwise_cons.mp hsorted).2
    have hlt := (List.pairwise_cons.mp hsorted).1
    have step : ∀ err, (err = none ∨ s0 = .performOSUpdate) →
        (s, some e) ∈ (s0, err) :: (runPlan rest).1 →
        (runPlan rest).2 = some e ∧
        ∀ c ∈ (s0, err) :: (runPlan rest).1, c.1.index ≤ s.index ∧
          (c.1 ≠ .performOSUpdate → c.1 ≠ s → c.2 = none) := by
      intro err herr hm
      have hin : (s, some e) ∈ (runPlan rest).1 := by
        rcases List.mem_cons.mp hm with heq | hin
        · rcases herr with herr | herr
          · rw [herr] at heq
            exact absurd (Prod.mk.inj heq).2 (by simp)
          · exact absurd ((Prod.mk.inj heq).1.trans herr) hs
        · exact hin
      obtain ⟨hres, hall⟩ := ih hrest hin
      refine ⟨hres, ?_⟩
      intro c hc
      rcases List.mem_cons.mp hc with rfl | hc
      · refine ⟨Nat.le_of_lt (hlt _ (runPlan_calls_subset rest _ hin)), ?_⟩
        intro hne _
        rcases herr with herr | herr
        · exact herr
        · exact absurd herr hne
      · exact hall c hc
    cases err0 with
    | none => exact step none (Or.inl rfl) hmem
    | some e0 =>
      by_cases hs0 : s0 = .performOSUpdate
      · subst hs0
        rw [runPlan_cons_osUpdate] at hmem ⊢
        exact step (some e0) (Or.inr rfl) hmem
      · rw [runPlan_cons_fail s0 e0 rest hs0] at hmem ⊢
        have heq := List.mem_singleton.mp hmem
        obtain ⟨h1, h2⟩ := Prod.mk.inj heq
        have h3 : e = e0 := Option.some.inj h2
        subst h1 h3
        refine ⟨rfl, ?_⟩
        intro c hc
        rcases List.mem_singleton.mp hc with rfl
        exact ⟨Nat.le_refl _, fun _ h => absurd rfl h⟩

theorem runPlan_error_has_call (pl : List (Stage × Option String)) (e : String)
    (h : (runPlan pl).2 = some e) :
    ∃ s, s ≠ .performOSUpdate ∧ (s, some e) ∈ (runPlan pl).1 := by
  induction pl with
  | nil => simp [runPlan] at h
  | cons hd rest ih =>
    obtain ⟨s0, err0⟩ := hd
    cases err0 with
    | none =>
      obtain ⟨s, hs, hm⟩ := ih h
      exact ⟨s, hs, List.mem_cons_of_mem _ hm⟩
    | some e0 =>
      by_cases hs0 : s0 = .performOSUpdate
      · subst hs0
        rw [runPlan_cons_osUpdate] at h ⊢
        obtain ⟨s, hs, hm⟩ := ih h
        exact ⟨s, hs, List.mem_cons_of_mem _ hm⟩
      · rw [runPlan_cons_fail s0 e0 rest hs0] at h ⊢
        have : e0 = e := Option.some.inj h
        subst this
        exact ⟨s0, hs0, List.mem_singleton.mpr rfl⟩

theorem runPlan_success_calls (pl : List (Stage × Option String))
    (h : (runPlan pl).2 = none) :
    ∀ s ∈ pl.map Prod.fst, s ≠ .performOSUpdate → (s, none) ∈ (runPlan pl).1 := by
  induction pl with
  | nil => simp
  | cons hd rest ih =>
    obtain ⟨s0, err0⟩ := hd
    have step : ∀ err, (runPlan rest).2 = none → (err = none ∨ s0 = .performOSUpdate) →
        ∀ s ∈ ((s0, err) :: rest).map Prod.fst, s ≠ .performOSUpdate →
          (s, none) ∈ (s0, err) :: (runPlan rest).1 := by
      intro err hr herr s hsmem hs
      rcases List.mem_cons.mp hsmem with heq | hin
      · rcases herr with herr | herr
        · subst herr
          exact List.mem_cons.mpr (Or.inl (by rw [heq]))
        · exact absurd (heq.trans herr) hs
      · exact List.mem_cons_of_mem _ (ih hr s hin hs)
    cases err0 with
    | none => exact step none h (Or.inl rfl)
    | some e0 =>
      by_cases hs0 : s0 = .performOSUpdate
      · subst hs0
        rw [runPlan_cons_osUpdate] at h ⊢
        exact step (some e0) h (Or.inr rfl)
      · rw [runPlan_cons_fail s0 e0 rest hs0] at h
        exact Option.noConfusion h

theorem runPlan_osUpdate_irrelevant (a : Stage × Option String) (x y : Option String)
    (rest : List (Stage × Option String)) :
    (runPlan (a :: (Stage.performOSUpdate, x) :: rest)).2 =
      (runPlan (a :: (Stage.performOSUpdate, y) :: rest)).2 := by
  obtain ⟨s, err⟩ := a
  cases err with
  | none => simp [runPlan_cons_none, runPlan_cons_osUpdate]
  | some e =>
    by_cases hs : s = .performOSUpdate
    · subst hs
      simp [runPlan_cons_osUpdate]
    · simp [runPlan_cons_fail _ _ _ hs]

theorem runUpdate_plan (w : World) (specifiedChannel rootDir : String)
    (maxPullers maxPullRetries : Int) :
    ∃ pl : List (Stage × Option String), pl.map Prod.fst = allStages ∧
      stageCalls (runUpdate w specifiedChannel rootDir maxPullers maxPullRetries).1 =
        (runPlan pl).1 ∧
      (runUpdate w specifiedChannel rootDir maxPullers maxPullRetries).2 = (runPlan pl).2 ∧
      (Event.reboot ∈ (runUpdate w specifiedChannel rootDir maxPullers maxPullRetries).1 ↔
        (runUpdate w specifiedChannel rootDir maxPullers maxPullRetries).2 = none) ∧
      (∀ hp wh, Event.setStatus "done" hp wh ∈
          (runUpdate w specifiedChannel rootDir maxPullers maxPullRetries).1 →
        (runUpdate w specifiedChannel rootDir maxPullers maxPullRetries).2 = none) ∧
      Event.unlock ∉ (runUpdate w specifiedChannel rootDir maxPullers maxPullRetries).1 := by
  simp only [runUpdate]
  rcases hf : (fetchReleaseData w (w.getChannel specifiedChannel).1).2 with e | rd
  · refine ⟨(Stage.fetchReleaseData, some e) :: (allStages.tail.map fun s => (s, none)), ?_⟩
    simp [allStages, runPlan_cons_fail, stageCalls, errOf]
  simp only []
  rcases hl : rd.GetImageByName configureImage with _ | img
  · refine ⟨(Stage.fetchReleaseData, none) ::
      (Stage.configureLookup, some "configure image data not found in the manifest") ::
      (allStages.tail.tail.map fun s => (s, none)), ?_⟩
    simp [allStages, runPlan_cons_fail, runPlan_cons_none, stageCalls, stageCalls_append, errOf]
  simp only []
  rcases he : (extractConfigure w img.Tag).2 with e | dir
  · refine ⟨(Stage.fetchReleaseData, none) :: (Stage.configureLookup, none) ::
      (Stage.extractConfigure, some e) :: (allStages.tail.tail.tail.map fun s => (s, none)), ?_⟩
    simp [allStages, runPlan_cons_fail, runPlan_cons_none, stageCalls, stageCalls_append, errOf]
  simp only []
  obtain ⟨h1, h2, h3, h4, h5⟩ := runUpdateStaged_plan w rootDir
    (w.getChannel specifiedChannel).1 rd dir maxPullers maxPullRetries
  refine ⟨(Stage.fetchReleaseData, none) :: (Stage.configureLookup, none) ::
      (Stage.extractConfigure, none) ::
      stagedPlan w rootDir (w.getChannel specifiedChannel).1 rd dir maxPullers maxPullRetries,
    ?_, ?_, ?_, ?_, ?_, ?_⟩
  · simp [allStages, stagedPlan]
  · simp [runPlan_cons_none, stageCalls, stageCalls_append, errOf, h1]
  · simp [runPlan_cons_none, h2]
  · simp [h3]
  · intro hp wh hmem
    apply h4 hp wh
    simpa using hmem
  · simpa using h5

theorem allStages_sorted (pl : List (Stage × Option String))
    (h : pl.map Prod.fst = allStages) : pl.Pairwise (fun a b => a.1.index < b.1.index) := by
  have hs : allStages.Pairwise (fun a b => a.index < b.index) := by
    simp [allStages, Stage.index]
  rw [← h, List.pairwise_map] at hs
  exact hs

theorem runUpdate_osUpdate_irrelevant (w : World) (specifiedChannel rootDir : String)
    (maxPullers maxPullRetries : Int) (osErr : Option String) :
    (runUpdate { w with performOSUpdate := osErr } specifiedChannel rootDir maxPullers
        maxPullRetries).2 =
      (runUpdate w specifiedChannel rootDir maxPullers maxPullRetries).2 := by
  have hfetch : ∀ c, fetchReleaseData { w with performOSUpdate := osErr } c =
      fetchReleaseData w c := fun _ => rfl
  have hextract : ∀ t, extractConfigure { w with performOSUpdate := osErr } t =
      extractConfigure w t := fun _ => rfl
  simp only [runUpdate, hfetch, hextract]
  rcases (fetchReleaseData w (w.getChannel specifiedChannel).1).2 with e | rd
  · rfl
  simp only []
  rcases rd.GetImageByName configureImage with _ | img
  · rfl
  simp only []
  rcases (extractConfigure w img.Tag).2 with e | dir
  · rfl
  simp only []
  rw [(runUpdateStaged_plan _ _ _ _ _ _ _).2.1, (runUpdateStaged_plan w _ _ _ _ _ _).2.1]
  exact runPlan_osUpdate_irrelevant _ _ _ _

theorem runPlan_first_failure_called (pl : List (Stage × Option String))
    (hsorted : pl.Pairwise (fun a b => a.1.index < b.1.index)) (s : Stage) (e : String)
    (hs : s ≠ .performOSUpdate) (hmem : (s, some e) ∈ pl)
    (hfirst : ∀ s1 e1, (s1, some e1) ∈ pl → s1 ≠ .performOSUpdate → s.index ≤ s1.index) :
    (s, some e) ∈ (runPlan pl).1 := by
  induction pl with
  | nil => simp at hmem
  | cons hd rest ih =>
    obtain ⟨s0, err0⟩ := hd
    have hrest := (List.pairwise_cons.mp hsorted).2
    have hlt := (List.pairwise_cons.mp hsorted).1
    have hfirst2 : ∀ s1 e1, (s1, some e1) ∈ rest → s1 ≠ .performOSUpdate →
        s.index ≤ s1.index := fun s1 e1 h1 => hfirst s1 e1 (List.mem_cons_of_mem _ h1)
    rcases List.mem_cons.mp hmem with heq | hin
    · obtain ⟨h1, h2⟩ := Prod.mk.inj heq
      subst h1 h2
      rw [runPlan_cons_fail s e rest hs]
      exact List.mem_singleton.mpr rfl
    · have hidx : s0.index < s.index := hlt _ hin
      cases err0 with
      | none => exact List.mem_cons_of_mem _ (ih hrest hin hfirst2)
      | some e0 =>
        by_cases hs0 : s0 = .performOSUpdate
        · subst hs0
          rw [runPlan_cons_osUpdate]
          exact List.mem_cons_of_mem _ (ih hrest hin hfirst2)
        · have := hfirst s0 e0 (List.mem_cons_self _ _) hs0
          omega

theorem runPlan_success_iff (pl : List (Stage × Option String)) :
    (runPlan pl).2 = none ↔ ∀ s e, (s, some e) ∈ pl → s = .performOSUpdate := by
  induction pl with
  | nil => simp [runPlan]
  | cons hd rest ih =>
    obtain ⟨s0, err0⟩ := hd
    cases err0 with
    | none =>
      rw [runPlan_cons_none, ih]
      constructor
      · intro h s e hm
        rcases List.mem_cons.mp hm with heq | hin
        · exact absurd (Prod.mk.inj heq).2 (by simp)
        · exact h s e hin
      · intro h s e hm
        exact h s e (List.mem_cons_of_mem _ hm)
    | some e0 =>
      by_cases hs0 : s0 = .performOSUpdate
      · subst hs0
        rw [runPlan_cons_osUpdate, ih]
        constructor
        · intro h s e hm
          rcases List.mem_cons.mp hm with heq | hin
          · exact (Prod.mk.inj heq).1
          · exact h s e hin
        · intro h s e hm
          exact h s e (List.mem_cons_of_mem _ hm)
      · rw [runPlan_cons_fail s0 e0 rest hs0]
        constructor
        · intro h
          exact Option.noConfusion h
        · intro h
          exact absurd (h s0 e0 (List.mem_cons_self _ _)) hs0

theorem runUpdate_outcomes (w : World) (specifiedChannel rootDir : String)
    (maxPullers maxPullRetries : Int) :
    stageCalls (runUpdate w specifiedChannel rootDir maxPullers maxPullRetries).1 =
      (runPlan (stageOutcomes w specifiedChannel rootDir maxPullers maxPullRetries)).1 ∧
    (runUpdate w specifiedChannel rootDir maxPullers maxPullRetries).2 =
      (runPlan (stageOutcomes w specifiedChannel rootDir maxPullers maxPullRetries)).2 ∧
    ((runUpdate w specifiedChannel rootDir maxPullers maxPullRetries).2 = none →
      (stageOutcomes w specifiedChannel rootDir maxPullers maxPullRetries).map Prod.fst =
        allStages) ∧
    (stageOutcomes w specifiedChannel rootDir maxPullers maxPullRetries).Pairwise
      (fun a b => a.1.index < b.1.index) := by
  simp only [runUpdate, stageOutcomes]
  rcases hf : (fetchReleaseData w (w.getChannel specifiedChannel).1).2 with e | rd
  · simp [runPlan_cons_fail, runPlan_nil, stageCalls, errOf]
  simp only []
  rcases hl : rd.GetImageByName configureImage with _ | img
  · simp [runPlan_cons_fail, runPlan_cons_none, runPlan_nil, stageCalls, stageCalls_append,
      errOf, Stage.index]
  simp only []
  rcases he : (extractConfigure w img.Tag).2 with e | dir
  · simp [runPlan_cons_fail, runPlan_cons_none, runPlan_nil, stageCalls, stageCalls_append,
      errOf, Stage.index]
  simp only []
  obtain ⟨h1, h2, -, -, -⟩ := runUpdateStaged_plan w rootDir
    (w.getChannel specifiedChannel).1 rd dir maxPullers maxPullRetries
  refine ⟨?_, ?_, ?_, ?_⟩
  · simp [runPlan_cons_none, stageCalls, stageCalls_append, errOf, h1]
  · simp [runPlan_cons_none, h2]
  · intro _
    simp [allStages, stagedPlan]
  · simp [stagedPlan, Stage.index]

/-- On the healthy host all fourteen stages run, nil is returned and the reboot is
the last effect before the deferred clean-up. -/
theorem runUpdate_healthy_run :
    (runUpdate healthyWorld "stable" "/" 4 5).2 = none ∧
    (stageCalls (runUpdate healthyWorld "stable" "/" 4 5).1).map Prod.fst = allStages ∧
    Event.reboot ∈ (runUpdate healthyWorld "stable" "/" 4 5).1 := by
  refine ⟨rfl, ?_, ?_⟩ <;> decide

/-- When pulling the images fails the run stops there: the error is returned, the
last stage called is `pullAllImages`, and there is no reboot. -/
theorem runUpdate_pull_failure_run :
    (runUpdate pullFailsWorld "stable" "/" 4 5).2 = some "pull failed after 5 attempts" ∧
    (stageCalls (runUpdate pullFailsWorld "stable" "/" 4 5).1).map Prod.fst =
      allStages.take 8 ∧
    Event.reboot ∉ (runUpdate pullFailsWorld "stable" "/" 4 5).1 := by
  refine ⟨rfl, ?_, ?_⟩ <;> decide

theorem stageOutcomes_before_pull (w : World) (specifiedChannel rootDir : String)
    (maxPullers maxPullRetries : Int) (rd : ReleaseManifestV2) (img : ReleaseManifestV2Image)
    (dir : String)
    (hf : (fetchReleaseData w (w.getChannel specifiedChannel).1).2 = .ok rd)
    (hl : rd.GetImageByName configureImage = some img)
    (he : (extractConfigure w img.Tag).2 = .ok dir)
    (h0 : (setupPaths w rootDir).2 = none)
    (h1 : w.setupUtilityScripts rootDir dir = none)
    (h2 : w.setupBinaries rootDir dir = none) :
    ∀ s1 e1, (s1, some e1) ∈
        stageOutcomes w specifiedChannel rootDir maxPullers maxPullRetries →
      s1 ≠ .performOSUpdate → Stage.pullAllImages.index ≤ s1.index := by
  intro s1 e1 hm hs1
  simp only [stageOutcomes, stagedPlan, hf, hl, he, h0, h1, h2] at hm
  cases s1 <;> simp_all [Stage.index]

/-- C9: `runUpdate` is fail-fast and reboots only after success, for every
assignment of outcomes the environment makes to the stages (`stageOutcomes`).
If a stage other than the OS-level update fails in that assignment and no such
stage before it does, `runUpdate` calls it, returns its error, calls no stage
later in program order, does not write status "done" and does not trigger the
reboot; nil is returned exactly when no such stage fails, and the reboot is
triggered exactly when nil is returned, in which case all fourteen stages had
an outcome and every one but possibly the OS-level update answered nil.  Every
stage call in the trace carries the outcome the environment assigned, so the
same holds read off the trace: a failed call of such a stage is the error
returned, lies last in program order among the calls, and excludes "done" and
the reboot.  In particular an error of `fetchReleaseData`, or of
`pullAllImages` after the stages before it succeeded, is returned without a
reboot.  Replacing the outcome of the OS-level update does not change the
result. -/
theorem runUpdate_fail_fast (w : World) (specifiedChannel rootDir : String)
    (maxPullers maxPullRetries : Int) :
    (∀ s e, s ≠ .performOSUpdate →
      (s, some e) ∈ stageOutcomes w specifiedChannel rootDir maxPullers maxPullRetries →
      (∀ s1 e1, (s1, some e1) ∈
          stageOutcomes w specifiedChannel rootDir maxPullers maxPullRetries →
        s1 ≠ .performOSUpdate → s.index ≤ s1.index) →
      (runUpdate w specifiedChannel rootDir maxPullers maxPullRetries).2 = some e ∧
      (∃ io, Event.stage s io (some e) ∈
        (runUpdate w specifiedChannel rootDir maxPullers maxPullRetries).1) ∧
      (∀ s2 io2 err2, Event.stage s2 io2 err2 ∈
          (runUpdate w specifiedChannel rootDir maxPullers maxPullRetries).1 →
        s2.index ≤ s.index) ∧
      (∀ hp wh, Event.setStatus "done" hp wh ∉
        (runUpdate w specifiedChannel rootDir maxPullers maxPullRetries).1) ∧
      Event.reboot ∉ (runUpdate w specifiedChannel rootDir maxPullers maxPullRetries).1) ∧
    ((runUpdate w specifiedChannel rootDir maxPullers maxPullRetries).2 = none ↔
      ∀ s e, (s, some e) ∈
          stageOutcomes w specifiedChannel rootDir maxPullers maxPullRetries →
        s = .performOSUpdate) ∧
    (∀ s io err, Event.stage s io err ∈
        (runUpdate w specifiedChannel rootDir maxPullers maxPullRetries).1 →
      (s, err) ∈ stageOutcomes w specifiedChannel rootDir maxPullers maxPullRetries) ∧
    (Event.reboot ∈ (runUpdate w specifiedChannel rootDir maxPullers maxPullRetries).1 →
      (stageOutcomes w specifiedChannel rootDir maxPullers maxPullRetries).map Prod.fst =
        allStages ∧
      ∀ s, s ≠ .performOSUpdate →
        (s, none) ∈ stageOutcomes w specifiedChannel rootDir maxPullers maxPullRetries) ∧
    (∀ e, (fetchReleaseData w (w.getChannel specifiedChannel).1).2 = .error e →
      (runUpdate w specifiedChannel rootDir maxPullers maxPullRetries).2 = some e ∧
      Event.reboot ∉ (runUpdate w specifiedChannel rootDir maxPullers maxPullRetries).1) ∧
    (∀ rd img dir e,
      (fetchReleaseData w (w.getChannel specifiedChannel).1).2 = .ok rd →
      rd.GetImageByName configureImage = some img →
      (extractConfigure w img.Tag).2 = .ok dir →
      (setupPaths w rootDir).2 = none →
      w.setupUtilityScripts rootDir dir = none →
      w.setupBinaries rootDir dir = none →
      w.pullAllImages rd maxPullers maxPullRetries = some e →
      (runUpdate w specifiedChannel rootDir maxPullers maxPullRetries).2 = some e ∧
      Event.reboot ∉ (runUpdate w specifiedChannel rootDir maxPullers maxPullRetries).1) ∧
    (∀ s io e, s ≠ .performOSUpdate →
      Event.stage s io (some e) ∈
        (runUpdate w specifiedChannel rootDir maxPullers maxPullRetries).1 →
      (runUpdate w specifiedChannel rootDir maxPullers maxPullRetries).2 = some e ∧
      (∀ s2 io2 err2, Event.stage s2 io2 err2 ∈
          (runUpdate w specifiedChannel rootDir maxPullers maxPullRetries).1 →
        s2.index ≤ s.index ∧ (s2 ≠ .performOSUpdate → s2 ≠ s → err2 = none)) ∧
      (∀ hp wh, Event.setStatus "done" hp wh ∉
        (runUpdate w specifiedChannel rootDir maxPullers maxPullRetries).1) ∧
      Event.reboot ∉ (runUpdate w specifiedChannel rootDir maxPullers maxPullRetries).1) ∧
    (∀ e, (runUpdate w specifiedChannel rootDir maxPullers maxPullRetries).2 = some e →
      ∃ s io, s ≠ .performOSUpdate ∧ Event.stage s io (some e) ∈
        (runUpdate w specifiedChannel rootDir maxPullers maxPullRetries).1) ∧
    (Event.reboot ∈ (runUpdate w specifiedChannel rootDir maxPullers maxPullRetries).1 ↔
      (runUpdate w specifiedChannel rootDir maxPullers maxPullRetries).2 = none) ∧
    (Event.reboot ∈ (runUpdate w specifiedChannel rootDir maxPullers maxPullRetries).1 →
      ∀ s, s ≠ .performOSUpdate → ∃ io, Event.stage s io none ∈
        (runUpdate w specifiedChannel rootDir maxPullers maxPullRetries).1) ∧
    (∀ osErr, (runUpdate { w with performOSUpdate := osErr } specifiedChannel rootDir
        maxPullers maxPullRetries).2 =
      (runUpdate w specifiedChannel rootDir maxPullers maxPullRetries).2) := by
  obtain ⟨_, -, -, -, hreboot, hdone, -⟩ :=
    runUpdate_plan w specifiedChannel rootDir maxPullers maxPullRetries
  obtain ⟨hcalls, hres, hall, hsorted⟩ :=
    runUpdate_outcomes w specifiedChannel rootDir maxPullers maxPullRetries
  have traced : ∀ s io e, s ≠ .performOSUpdate →
      Event.stage s io (some e) ∈
        (runUpdate w specifiedChannel rootDir maxPullers maxPullRetries).1 →
      (runUpdate w specifiedChannel rootDir maxPullers maxPullRetries).2 = some e ∧
      (∀ s2 io2 err2, Event.stage s2 io2 err2 ∈
          (runUpdate w specifiedChannel rootDir maxPullers maxPullRetries).1 →
        s2.index ≤ s.index ∧ (s2 ≠ .performOSUpdate → s2 ≠ s → err2 = none)) ∧
      (∀ hp wh, Event.setStatus "done" hp wh ∉
        (runUpdate w specifiedChannel rootDir maxPullers maxPullRetries).1) ∧
      Event.reboot ∉ (runUpdate w specifiedChannel rootDir maxPullers maxPullRetries).1 := by
    intro s io e hs hmem
    have hcall : (s, some e) ∈
        (runPlan (stageOutcomes w specifiedChannel rootDir maxPullers maxPullRetries)).1 := by
      rw [← hcalls]
      exact (mem_stageCalls _ _ _).mpr ⟨io, hmem⟩
    obtain ⟨hr, hrest⟩ := runPlan_failed_call _ hsorted s e hs hcall
    have hsome : (runUpdate w specifiedChannel rootDir maxPullers maxPullRetries).2 = some e :=
      hres.trans hr
    refine ⟨hsome, ?_, ?_, ?_⟩
    · intro s2 io2 err2 hm2
      have hc2 : (s2, err2) ∈
          (runPlan (stageOutcomes w specifiedChannel rootDir maxPullers maxPullRetries)).1 := by
        rw [← hcalls]
        exact (mem_stageCalls _ _ _).mpr ⟨io2, hm2⟩
      exact hrest _ hc2
    · intro hp wh hm
      have := hdone hp wh hm
      rw [hsome] at this
      exact Option.noConfusion this
    · intro hm
      have := hreboot.mp hm
      rw [hsome] at this
      exact Option.noConfusion this
  have first : ∀ s e, s ≠ .performOSUpdate →
      (s, some e) ∈ stageOutcomes w specifiedChannel rootDir maxPullers maxPullRetries →
      (∀ s1 e1, (s1, some e1) ∈
          stageOutcomes w specifiedChannel rootDir maxPullers maxPullRetries →
        s1 ≠ .performOSUpdate → s.index ≤ s1.index) →
      (runUpdate w specifiedChannel rootDir maxPullers maxPullRetries).2 = some e ∧
      (∃ io, Event.stage s io (some e) ∈
        (runUpdate w specifiedChannel rootDir maxPullers maxPullRetries).1) ∧
      (∀ s2 io2 err2, Event.stage s2 io2 err2 ∈
          (runUpdate w specifiedChannel rootDir maxPullers maxPullRetries).1 →
        s2.index ≤ s.index) ∧
      (∀ hp wh, Event.setStatus "done" hp wh ∉
        (runUpdate w specifiedChannel rootDir maxPullers maxPullRetries).1) ∧
      Event.reboot ∉ (runUpdate w specifiedChannel rootDir maxPullers maxPullRetries).1 := by
    intro s e hs hmem hfirst
    have hcall := runPlan_first_failure_called _ hsorted s e hs hmem hfirst
    rw [← hcalls] at hcall
    obtain ⟨io, hio⟩ := (mem_stageCalls _ _ _).mp hcall
    obtain ⟨h1, h2, h3, h4⟩ := traced s io e hs hio
    exact ⟨h1, ⟨io, hio⟩, fun s2 io2 err2 hm => (h2 s2 io2 err2 hm).1, h3, h4⟩
  refine ⟨first, ?_, ?_, ?_, ?_, ?_, traced, ?_, hreboot, ?_,
    runUpdate_osUpdate_irrelevant w _ _ _ _⟩
  · rw [hres]
    exact runPlan_success_iff _
  · intro s io err hm
    apply runPlan_calls_subset
    rw [← hcalls]
    exact (mem_stageCalls _ _ _).mpr ⟨io, hm⟩
  · intro hm
    have hnone := hreboot.mp hm
    refine ⟨hall hnone, ?_⟩
    intro s hs
    have hin : s ∈ (stageOutcomes w specifiedChannel rootDir maxPullers maxPullRetries).map
        Prod.fst := by
      rw [hall hnone]
      cases s <;> simp [allStages]
    exact runPlan_calls_subset _ _
      (runPlan_success_calls _ (hres.symm.trans hnone) s hin hs)
  · intro e he
    have hmem : (Stage.fetchReleaseData, some e) ∈
        stageOutcomes w specifiedChannel rootDir maxPullers maxPullRetries := by
      simp [stageOutcomes, he]
    obtain ⟨h1, -, -, -, h5⟩ := first .fetchReleaseData e (by simp) hmem
      (fun s1 _ _ _ => by simp [Stage.index])
    exact ⟨h1, h5⟩
  · intro rd img dir e hf hl he h0 h1 h2 h3
    have hmem : (Stage.pullAllImages, some e) ∈
        stageOutcomes w specifiedChannel rootDir maxPullers maxPullRetries := by
      simp [stageOutcomes, stagedPlan, hf, hl, he, h3]
    have hfirst : ∀ s1 e1, (s1, some e1) ∈
          stageOutcomes w specifiedChannel rootDir maxPullers maxPullRetries →
        s1 ≠ .performOSUpdate → Stage.pullAllImages.index ≤ s1.index := by
      exact stageOutcomes_before_pull w specifiedChannel rootDir maxPullers maxPullRetries
        rd img dir hf hl he h0 h1 h2
    obtain ⟨r1, -, -, -, r5⟩ := first .pullAllImages e (by simp) hmem hfirst
    exact ⟨r1, r5⟩
  · intro e he
    obtain ⟨s, hs, hm⟩ := runPlan_error_has_call _ e (hres.symm.trans he)
    rw [← hcalls] at hm
    obtain ⟨io, hio⟩ := (mem_stageCalls _ _ _).mp hm
    exact ⟨s, io, hs, hio⟩
  · intro hm s hs
    have hnone := hres.symm.trans (hreboot.mp hm)
    have hin : s ∈ (stageOutcomes w specifiedChannel rootDir maxPullers maxPullRetries).map
        Prod.fst := by
      rw [hall (hreboot.mp hm)]
      cases s <;> simp [allStages]
    have := runPlan_success_calls _ hnone s hin hs
    rw [← hcalls] at this
    exact (mem_stageCalls _ _ _).mp this

end update

/-! ## The update command: option check and lock -/

namespace update

open platconf

/-- C10: with `Pullers < 1`, whatever the channel, the retry count and the
environment, `Execute` returns the configuration error having done nothing
but set `DOCKER_API_VERSION`: the lock is not created or tried, and no event of
`runUpdate` (button, status write, stage call, reboot) occurs; with
`Pullers >= 1`, `Execute` never returns an error value at all. -/
theorem execute_pullers_check (w : World) (o : Opts) (args : List String) :
    (o.Pullers < 1 →
      (o.Execute w args).2 = .returned (some "The maximum number of pullers must be > 0") ∧
      (o.Execute w args).1 = [.setenv "DOCKER_API_VERSION" "1.22"] ∧
      Event.requireRoot ∉ (o.Execute w args).1 ∧
      (∀ path, Event.lockNew path ∉ (o.Execute w args).1) ∧
      Event.tryLock ∉ (o.Execute w args).1 ∧
      (∀ mode, Event.button mode ∉ (o.Execute w args).1) ∧
      (∀ st hp wh, Event.setStatus st hp wh ∉ (o.Execute w args).1) ∧
      (∀ s io err, Event.stage s io err ∉ (o.Execute w args).1) ∧
      Event.reboot ∉ (o.Execute w args).1) ∧
    (1 ≤ o.Pullers → ∀ e, (o.Execute w args).2 ≠ .returned (some e)) := by
  constructor
  · intro h
    simp [Opts.Execute, h]
  · intro h e
    have hlt : ¬ o.Pullers < 1 := by omega
    simp only [Opts.Execute, hlt, if_false]
    rcases hroot : w.requireRoot with _ | halt
    · simp only []
      have hlock : ∀ out, (tryLockUpdate w lockfilePath).2 = some out →
          out ≠ .returned (some e) := by
        intro out hout
        unfold tryLockUpdate at hout
        rcases hnew : w.lockNew lockfilePath with _ | e1
        · rw [hnew] at hout
          rcases htry : w.tryLock with _ | _ | e2 <;> rw [htry] at hout <;>
            simp at hout <;> subst hout <;> simp
        · rw [hnew] at hout
          simp at hout
          subst hout
          simp
      rcases hl : (tryLockUpdate w lockfilePath).2 with _ | out
      · simp only []
        rcases (runUpdate w o.Channel "/" o.Pullers o.PullRetries).2 with _ | errMsg <;> simp
      · simpa using hlock out hl
    · cases halt <;> simp [Halt.toOutcome]

theorem tryLockUpdate_no_unlock (w : World) (path : String) :
    Event.unlock ∉ (tryLockUpdate w path).1 := by
  unfold tryLockUpdate
  rcases w.lockNew lockfilePath with _ | e
  · rcases w.tryLock with _ | _ | e2 <;> simp
  · simp

/-- Once the lock is held, `lock.Unlock()` is performed exactly on the runs in
which `runUpdate` returns nil; a run in which it returns an error ends in
`os.Exit(1)` with the deferred call never run. -/
theorem execute_unlock_iff_success (w : World) (o : Opts) (args : List String)
    (hp : 1 ≤ o.Pullers) (hroot : w.requireRoot = none)
    (hlock : (tryLockUpdate w lockfilePath).2 = none) :
    (Event.unlock ∈ (o.Execute w args).1 ↔
      (runUpdate w o.Channel "/" o.Pullers o.PullRetries).2 = none) ∧
    (∀ e, (runUpdate w o.Channel "/" o.Pullers o.PullRetries).2 = some e →
      (o.Execute w args).2 = .exited 1 ∧ Event.unlock ∉ (o.Execute w args).1) ∧
    ((runUpdate w o.Channel "/" o.Pullers o.PullRetries).2 = none →
      (o.Execute w args).2 = .returned none ∧
      (o.Execute w args).1.getLast? = some .unlock) := by
  have hlt : ¬ o.Pullers < 1 := by omega
  have hnl := tryLockUpdate_no_unlock w lockfilePath
  obtain ⟨-, -, -, -, -, -, hnu⟩ := runUpdate_plan w o.Channel "/" o.Pullers o.PullRetries
  simp only [Opts.Execute, hlt, if_false, hroot, hlock]
  have key : ∀ l : List Event, (l ++ [Event.unlock]).getLast? = some .unlock :=
    fun l => by simp
  rcases hr : (runUpdate w o.Channel "/" o.Pullers o.PullRetries).2 with _ | e
  · simp
    simpa [List.append_assoc] using key (Event.requireRoot ::
      ((tryLockUpdate w lockfilePath).1 ++ (runUpdate w o.Channel "/" o.Pullers o.PullRetries).1))
  · simp [hnl, hnu]

/-- C1 (the code departs from the claim): on the offline host with default
options the lock is acquired, `runUpdate` returns the network error, and
`Execute` ends the process with exit code 1 without `lock.Unlock()` having been
performed: the trace ends in `exit 1` and contains no `unlock`. -/
theorem execute_failure_exits_without_unlock :
    (tryLockUpdate offlineWorld lockfilePath).2 = none ∧
    (runUpdate offlineWorld sampleOpts.Channel "/" sampleOpts.Pullers sampleOpts.PullRetries).2 =
      some "dial tcp: network is unreachable" ∧
    (sampleOpts.Execute offlineWorld []).2 = .exited 1 ∧
    Event.tryLock ∈ (sampleOpts.Execute offlineWorld []).1 ∧
    Event.unlock ∉ (sampleOpts.Execute offlineWorld []).1 ∧
    (sampleOpts.Execute offlineWorld []).1.getLast? = some (.exit 1) := by
  refine ⟨rfl, rfl, rfl, ?_, ?_, ?_⟩
  · decide
  · decide
  · rfl

end update

/-! ## The status service: file ingestion -/

namespace oldstatus

/-- C4: `updateStatusFromFile` replaces, never merges.  When the file opens and
decodes to `r`, no error is returned and status, progress and what are those of
`r`, whatever the prior record held; when the file cannot be opened or cannot
be decoded, that error is returned and the prior record is unchanged.  On the
sample, a record with all three fields set becomes `foobar1` with progress and
what unset after reading the one-field document. -/
theorem updateStatusFromFile_full_replace (dec : Decoder) (fs : FileSystem)
    (prior : StatusData) (filePath : String) :
    (∀ bytes r, fs filePath = .ok bytes → dec bytes = .ok r →
      (updateStatusFromFile dec fs prior filePath).2 = none ∧
      (updateStatusFromFile dec fs prior filePath).1.Status = r.Status ∧
      (updateStatusFromFile dec fs prior filePath).1.Progress = r.Progress ∧
      (updateStatusFromFile dec fs prior filePath).1.What = r.What) ∧
    (∀ e, fs filePath = .error e →
      updateStatusFromFile dec fs prior filePath = (prior, some e)) ∧
    (∀ bytes e, fs filePath = .ok bytes → dec bytes = .error e →
      updateStatusFromFile dec fs prior filePath = (prior, some e)) ∧
    ((updateStatusFromFile dec fs prior filePath).2 = none ↔
      ∃ bytes r, fs filePath = .ok bytes ∧ dec bytes = .ok r) ∧
    updateStatusFromFile decodeTable (singleFile filePath docFoobar1) busyStatus filePath =
      ({ Status := "foobar1", Progress := none, What := none }, none) := by
  refine ⟨?_, ?_, ?_, ?_, ?_⟩
  · intro bytes r hf hd
    simp [updateStatusFromFile, hf, hd]
  · intro e hf
    simp [updateStatusFromFile, hf]
  · intro bytes e hf hd
    simp [updateStatusFromFile, hf, hd]
  · unfold updateStatusFromFile
    rcases hf : fs filePath with e | bytes
    · simp
    · rcases hd : dec bytes with e | r
      · simp [hd]
      · simp [hd]
  · simp [updateStatusFromFile, singleFile, decodeTable, docFoobar1]

/-- C2 (the code departs from the claim): watching the temporary file
`tmpStatusFile` and receiving the write notification after `docFoobar1` was
written to it, the watcher opens `statusFilePath` instead of the watched path,
fails, and leaves the record at its zero value (status `""`, not `"foobar1"`);
reading the watched path at the same moment would have produced `foobar1`. -/
theorem watcher_reads_statusFilePath_not_watched_path :
    watchStatusFileForChange decodeTable notifyOk StatusData.zero tmpStatusFile
        [(singleFile tmpStatusFile docFoobar1, .event tmpStatusFile fsnotifyWrite)] =
      .ok (StatusData.zero,
        ["Status file watcher started on /etc/protonet/system/configure-script-status",
         "ERROR: failed to read status from SKVS file: open " ++
           "/etc/protonet/system/configure-script-status: no such file or directory"]) ∧
    (updateStatusFromFile decodeTable (singleFile tmpStatusFile docFoobar1) StatusData.zero
        tmpStatusFile).1 = { Status := "foobar1", Progress := none, What := none } := by
  constructor
  · simp [watchStatusFileForChange, notifyOk, watchLoop, watchStep, updateStatusFromFile,
      singleFile, tmpStatusFile, statusFilePath, fsnotifyWrite, StatusData.zero]
  · simp [updateStatusFromFile, singleFile, decodeTable, docFoobar1, StatusData.zero]

/-- When the read at start-up fails, `Execute` starts no watcher, and `/json`
keeps reporting the zero record whatever is later written and notified. -/
theorem execute_no_watcher_after_failed_read (dec : Decoder) (fs : FileSystem)
    (o : Opts) (args : List String)
    (h : (updateStatusFromFile dec fs StatusData.zero statusFilePath).2 ≠ none)
    (n : Notify) (deliveries : List (FileSystem × WatchMsg)) :
    (o.Execute dec fs args).watcher = none ∧
    getJSON dec n (o.Execute dec fs args) deliveries = some StatusData.zero := by
  unfold Opts.Execute
  rcases hu : updateStatusFromFile dec fs StatusData.zero statusFilePath with ⟨st, err⟩
  rw [hu] at h
  cases err with
  | none => exact absurd rfl h
  | some e =>
    have hst : st = StatusData.zero := by
      unfold updateStatusFromFile at hu
      rcases hf : fs statusFilePath with e1 | bytes
      · simp only [hf, Prod.mk.injEq] at hu
        exact hu.1.symm
      · rcases hd : dec bytes with e2 | r
        · simp only [hf, hd, Prod.mk.injEq] at hu
          exact hu.1.symm
        · simp [hf, hd] at hu
    subst hst
    simp [getJSON]

/-- C3 (the code departs from the claim): started on an empty status file,
`Execute` logs the decode error `EOF` and starts no watcher; after
`docFoobar1` is written to the status file and the write is notified, `/json`
still reports the zero record, while a running watcher would have ingested
`foobar1` from the same notification. -/
theorem execute_skips_watcher_on_empty_file :
    (defaultOpts.Execute decodeTable (singleFile statusFilePath "") []).watcher = none ∧
    (defaultOpts.Execute decodeTable (singleFile statusFilePath "") []).logged =
      ["ERROR: failed to read status from SKVS file: EOF", "Starting platform-install-status"] ∧
    getJSON decodeTable notifyOk (defaultOpts.Execute decodeTable (singleFile statusFilePath "") [])
        [(singleFile statusFilePath docFoobar1, .event statusFilePath fsnotifyWrite)] =
      some StatusData.zero ∧
    getJSON decodeTable notifyOk
        { status := StatusData.zero, watcher := some statusFilePath, logged := [],
          listen := ":7887" }
        [(singleFile statusFilePath docFoobar1, .event statusFilePath fsnotifyWrite)] =
      some { Status := "foobar1", Progress := none, What := none } := by
  refine ⟨?_, ?_, ?_, ?_⟩
  · simp [Opts.Execute, updateStatusFromFile, singleFile, decodeTable]
  · simp [Opts.Execute, updateStatusFromFile, singleFile, decodeTable]
  · simp [Opts.Execute, updateStatusFromFile, singleFile, decodeTable, getJSON]
  · simp [getJSON, watchStatusFileForChange, notifyOk, watchLoop, watchStep,
      updateStatusFromFile, singleFile, decodeTable, docFoobar1, fsnotifyWrite]

end oldstatus

/-! ## The legacy manifest endpoint -/

namespace update

open platconf

theorem fetchReleaseDataV1_decoded (w : World) (channel data : String)
    (manifest : List ReleaseManifestV1)
    (hjson : (fetchReleaseJSONv1 w channel).2 = .ok data)
    (hdec : w.unmarshalV1 data = .ok manifest) :
    (fetchReleaseDataV1 w channel).2 =
      if manifest.length ≠ 1 then
        .error ("the length of the manifest array is " ++ toString manifest.length)
      else
        match manifest with
        | m :: _ => .ok m
        | [] => .error "index out of range [0] with length 0" := by
  have hresp : readResponse channel (w.http (urlV1 channel)) = .ok data := hjson
  unfold fetchReleaseDataV1 fetchReleaseJSONv1
  rw [hresp]
  simp only [hdec]
  split
  · rfl
  · cases manifest <;> rfl

/-- C11: once the V1 payload has been fetched and decoded to an array,
`fetchReleaseDataV1` succeeds exactly when the array has one element and then
returns that element unchanged; for every other length it returns the error
"the length of the manifest array is N", in particular for the empty array and
for arrays of two or more manifests. -/
theorem fetchReleaseDataV1_one_element_only (w : World) (channel data : String)
    (manifest : List ReleaseManifestV1)
    (hjson : (fetchReleaseJSONv1 w channel).2 = .ok data)
    (hdec : w.unmarshalV1 data = .ok manifest) :
    ((∃ m, (fetchReleaseDataV1 w channel).2 = .ok m) ↔ manifest.length = 1) ∧
    (∀ m, manifest = [m] → (fetchReleaseDataV1 w channel).2 = .ok m) ∧
    (manifest.length ≠ 1 → (fetchReleaseDataV1 w channel).2 =
      .error ("the length of the manifest array is " ++ toString manifest.length)) ∧
    (manifest = [] → (fetchReleaseDataV1 w channel).2 =
      .error "the length of the manifest array is 0") ∧
    (2 ≤ manifest.length → ∃ e, (fetchReleaseDataV1 w channel).2 = .error e) := by
  have hres := fetchReleaseDataV1_decoded w channel data manifest hjson hdec
  have hbad : manifest.length ≠ 1 → (fetchReleaseDataV1 w channel).2 =
      .error ("the length of the manifest array is " ++ toString manifest.length) := by
    intro hlen
    rw [hres, if_pos hlen]
  have hgood : ∀ m, manifest = [m] → (fetchReleaseDataV1 w channel).2 = .ok m := by
    intro m hm
    subst hm
    rw [hres]
    simp
  refine ⟨⟨?_, ?_⟩, hgood, hbad, ?_, ?_⟩
  · rintro ⟨m, hm⟩
    by_contra hlen
    rw [hbad hlen] at hm
    exact Except.noConfusion hm
  · intro hlen
    match manifest, hlen with
    | [m], _ => exact ⟨m, hgood m rfl⟩
  · intro hnil
    subst hnil
    exact hbad (by simp)
  · intro hlen
    exact ⟨_, hbad (by omega)⟩

/-- Witness for C11 on the legacy host, whose V1 endpoint serves the
one-element array holding `sampleV1`. -/
theorem fetchReleaseDataV1_one_element_only_witness :
    (fetchReleaseJSONv1 legacyWorld "stable").2 = .ok "legacy manifest" ∧
    legacyWorld.unmarshalV1 "legacy manifest" = .ok [sampleV1] ∧
    (((∃ m, (fetchReleaseDataV1 legacyWorld "stable").2 = .ok m) ↔ [sampleV1].length = 1) ∧
    (∀ m, [sampleV1] = [m] → (fetchReleaseDataV1 legacyWorld "stable").2 = .ok m) ∧
    ([sampleV1].length ≠ 1 → (fetchReleaseDataV1 legacyWorld "stable").2 =
      .error ("the length of the manifest array is " ++ toString [sampleV1].length)) ∧
    ([sampleV1] = [] → (fetchReleaseDataV1 legacyWorld "stable").2 =
      .error "the length of the manifest array is 0") ∧
    (2 ≤ [sampleV1].length → ∃ e, (fetchReleaseDataV1 legacyWorld "stable").2 = .error e)) :=
  ⟨by simp [fetchReleaseJSONv1, legacyWorld, readResponse], rfl,
    fetchReleaseDataV1_one_element_only legacyWorld "stable" "legacy manifest" [sampleV1]
      (by simp [fetchReleaseJSONv1, legacyWorld, readResponse]) rfl⟩

end update
